import Mathlib

/-!
# Group–Membership–List consistency engine: a shallow embedding

This file embeds the core services of the casamiroAPI repository
(`group.service.js`, `user.service.js` (membership part), `list.service.js`,
the WhatsApp-agent list surface, and the membership middleware with
`checkMembership` / `checkRole`) as pure Lean functions over an explicit
database state, and proves the spec's claims about them.

Modelling conventions:
* Mongo ObjectIds are `Nat`; a `DB.nextId` counter supplies fresh ids.
* `Date` values are `Nat` millisecond timestamps passed explicitly (`now`).
* `crypto.randomBytes(...).toString('hex')` is an explicit `token` argument.
* Mongo queries (`findById`, `findOne`, `countDocuments`, `updateMany`) become
  first-match / count / map operations over the in-memory collections, in
  document order.
* Every stateful service call returns `(Except ApiError α) × DB`: the thrown
  `ApiError` (or result) together with the post-state.  A transaction abort
  (as in `createGroup`) returns the caller's original state.
* External collaborators (icon upload) appear as explicit arguments holding
  the collaborator's outcome; phone-number normalisation (`fixPhoneNumber`)
  is outside the model, phones are already-normalised `Nat`s.
-/

namespace Casamiro

/-- Membership roles, from the `membershipSchema` enum. -/
inductive Role where
  | admin
  | editor
  | contributor
deriving DecidableEq, Repr

/-- Membership lifecycle status, from the `membershipSchema` enum. -/
inductive MStatus where
  | pending
  | active
  | declined
  | removed
deriving DecidableEq, Repr

/-- Error kinds of `ApiError` as used by the services (`http-status` codes).
`internal` stands for a raw JS `TypeError` escaping the handler. -/
inductive ErrKind where
  | notFound
  | forbidden
  | badRequest
  | conflict
  | internal
deriving DecidableEq, Repr

/-- `ApiError(statusCode, message)`. -/
structure ApiError where
  kind : ErrKind
  msg : String
deriving DecidableEq, Repr

/-- The `Membership` document (`membership.model.js`). -/
structure Membership where
  id : Nat
  user_id : Option Nat
  group_id : Nat
  invitee_phone : Option Nat
  invited_by : Nat
  status : MStatus
  role : Role
  token : Option String
  expiration_date : Option Nat
  accepted_at : Option Nat
deriving DecidableEq, Repr

/-- The `Group` document (`group.model.js`).  `iconUrl` is written by the
post-commit hashicon step even though the schema does not declare it. -/
structure Group where
  id : Nat
  name : String
  description : Option String
  createdBy : Option Nat
  ownerId : Option Nat
  isPersonal : Bool
  allowInvitations : Bool
  requireApproval : Bool
  iconUrl : Option String
deriving DecidableEq, Repr

/-- A list item subdocument (`listItemSchema`). -/
structure Item where
  id : Nat
  text : String
  isCompleted : Bool
  addedBy : String
  completedBy : Option Nat
  completedAt : Option Nat
  order : Nat
deriving DecidableEq, Repr

/-- The `List` document (`list.model.js`); named `ListDoc` because `List` is
taken by Lean's core list type. -/
structure ListDoc where
  id : Nat
  name : String
  description : Option String
  groupId : Nat
  isDefault : Bool
  createdBy : Nat
  allowItemDeletion : Bool
  requireApprovalForItems : Bool
  items : List Item
deriving DecidableEq, Repr

/-- The slice of the external `User` documents that these services read. -/
structure User where
  id : Nat
  firstName : String
  phoneNumber : Nat
deriving DecidableEq, Repr

/-- The datastore state: the four collections plus a fresh-id counter. -/
structure DB where
  groups : List Group
  memberships : List Membership
  lists : List ListDoc
  users : List User
  nextId : Nat
deriving DecidableEq, Repr

/-! ## Query primitives

`findFirst` is Mongo's `findOne`/`findById` (first match in document order),
`selectAll` is `find`, `countMatching` is `countDocuments`, and `updateWhere`
is `updateMany` restricted to the field updates these services perform. -/

/-- First element satisfying `p`, in order (`findOne`). -/
def findFirst (p : α → Prop) [DecidablePred p] : List α → Option α
  | [] => none
  | a :: as => if p a then some a else findFirst p as

/-- All elements satisfying `p`, in order (`find`). -/
def selectAll (p : α → Prop) [DecidablePred p] : List α → List α
  | [] => []
  | a :: as => if p a then a :: selectAll p as else selectAll p as

/-- Number of elements satisfying `p` (`countDocuments`). -/
def countMatching (p : α → Prop) [DecidablePred p] (l : List α) : Nat :=
  (selectAll p l).length

/-- Apply `f` to every element satisfying `p` (`updateMany`). -/
def updateWhere (p : α → Prop) [DecidablePred p] (f : α → α) : List α → List α
  | [] => []
  | a :: as => (if p a then f a else a) :: updateWhere p f as

/-! ## JS string primitives

JS `String.prototype.trim` / `toLowerCase`, modelled on the character data so
that concrete instances evaluate inside the kernel (ASCII inputs only, which
is all the services compare). -/

/-- JS `text.trim()`. -/
def jsTrim (s : String) : String :=
  ⟨((s.data.dropWhile Char.isWhitespace).reverse.dropWhile Char.isWhitespace).reverse⟩

/-- JS `text.toLowerCase()`. -/
def jsToLower (s : String) : String :=
  ⟨s.data.map Char.toLower⟩

/-- The normalisation the item routines apply: `text.trim().toLowerCase()`. -/
def norm (s : String) : String := jsToLower (jsTrim s)

/-- JS `.trim()` applied through an optional field (mongoose `trim: true`). -/
def trimOpt : Option String → Option String
  | none => none
  | some s => some (jsTrim s)

/-- Rendering of a role for the `checkRole` diagnostic message. -/
def roleStr : Role → String
  | .admin => "admin"
  | .editor => "editor"
  | .contributor => "contributor"

/-! ## Document validation (mongoose schema validators that can fire on the
paths exercised by the services) -/

/-- The `membershipSchema` constraints that are not enforced by Lean types:
`token` is required exactly while pending, and the `pre('validate')` hook
demands `user_id` on active memberships. -/
def membershipValid (m : Membership) : Prop :=
  (m.status = MStatus.pending → m.token ≠ none) ∧
  (m.status = MStatus.active → m.user_id ≠ none)

instance (m : Membership) : Decidable (membershipValid m) := by
  unfold membershipValid
  exact inferInstance

/-- `listSchema` and `listItemSchema` validators: required non-empty names,
max lengths, item text and `addedBy` required. -/
def listDocValid (l : ListDoc) : Prop :=
  l.name ≠ "" ∧ l.name.length ≤ 100 ∧ (l.description.getD "").length ≤ 500 ∧
  ∀ it ∈ l.items, it.text ≠ "" ∧ it.text.length ≤ 500 ∧ it.addedBy ≠ ""

instance (l : ListDoc) : Decidable (listDocValid l) := by
  unfold listDocValid
  exact inferInstance

/-- `membership.save()`: mongoose re-validates, then overwrites the stored
document matched by `_id`. -/
def saveMembership (db : DB) (m : Membership) : (Except ApiError Membership) × DB :=
  if membershipValid m then
    (.ok m, { db with memberships := updateWhere (fun x => x.id = m.id) (fun _ => m) db.memberships })
  else
    (.error ⟨.internal, "ValidationError: Membership"⟩, db)

/-- `list.save()`: re-validate, then overwrite the stored document by `_id`. -/
def saveList (db : DB) (l : ListDoc) : (Except ApiError ListDoc) × DB :=
  if listDocValid l then
    (.ok l, { db with lists := updateWhere (fun x => x.id = l.id) (fun _ => l) db.lists })
  else
    (.error ⟨.internal, "ValidationError: List"⟩, db)

/-! ## Authorization evaluator (`membership.middleware`: `checkMembership`,
`checkRole`, `requireRole`) -/

/-- `checkMembership(groupId, userId, requiredStatus)`.  The ObjectId format
check is vacuous in the model (every `Nat` is a valid id).  Absence of the
membership is a `FORBIDDEN` error, not a `NOT_FOUND`. -/
def checkMembership (db : DB) (groupId userId : Nat) (requiredStatus : MStatus) :
    Except ApiError Membership :=
  match findFirst (fun m => m.group_id = groupId ∧ m.user_id = some userId ∧
      m.status = requiredStatus) db.memberships with
  | none => .error ⟨.forbidden, "User is not a member of this group"⟩
  | some m => .ok m

/-- The mock membership object `checkRole` fabricates for the group creator
(the JS object carries only `role`, `status`, `user_id`, `group_id`; the
remaining fields are filled with inert defaults here). -/
def creatorMock (groupId userId : Nat) : Membership :=
  { id := 0
    user_id := some userId
    group_id := groupId
    invitee_phone := none
    invited_by := userId
    status := .active
    role := .admin
    token := none
    expiration_date := none
    accepted_at := none }

/-- The non-creator branch of `checkRole`: membership lookup plus the
allowed-roles test with its diagnostic message. -/
def checkRoleViaMembership (db : DB) (groupId userId : Nat) (requiredRoles : List Role) :
    Except ApiError Membership :=
  match checkMembership db groupId userId .active with
  | .error e => .error e
  | .ok membership =>
    if membership.role ∈ requiredRoles then .ok membership
    else
      .error ⟨.forbidden,
        "Insufficient permissions. Required roles: " ++
          String.intercalate ", " (requiredRoles.map roleStr) ++
          ". User role: " ++ roleStr membership.role⟩

/-- `checkRole(groupId, userId, requiredRoles)`: the group creator
short-circuits to an admin mock *before* the allowed-roles test; everyone
else goes through the active-membership lookup and the roles test.
`group.createdBy.toString()` on a creator-less group is a JS `TypeError`. -/
def checkRole (db : DB) (groupId userId : Nat) (requiredRoles : List Role) :
    Except ApiError Membership :=
  match findFirst (fun g => g.id = groupId) db.groups with
  | none => checkRoleViaMembership db groupId userId requiredRoles
  | some group =>
    match group.createdBy with
    | none => .error ⟨.internal, "TypeError: group.createdBy is undefined"⟩
    | some c =>
      if c = userId then .ok (creatorMock groupId userId)
      else checkRoleViaMembership db groupId userId requiredRoles

/-- The `requireRole(requiredRoles)` middleware body once the ids are
extracted from the request: rejects an empty role array, then delegates to
`checkRole`. -/
def requireRole (db : DB) (groupId userId : Nat) (requiredRoles : List Role) :
    Except ApiError Membership :=
  if requiredRoles = [] then .error ⟨.badRequest, "Required roles must be specified"⟩
  else checkRole db groupId userId requiredRoles

/-! ## Membership lifecycle (`user.service.js`, membership part) -/

/-- `7 * 24 * 60 * 60 * 1000` ms: the pending-invitation lifetime. -/
def sevenDaysMs : Nat := 604800000

/-- `createMembershipInvitation(membershipBody)`.  `token` stands for the
fresh `crypto.randomBytes(32).toString('hex')` value; the schema default
stamps `expiration_date = now + 7d` on the pending document. -/
def createMembershipInvitation (db : DB) (group_id invitee_phone invited_by : Nat)
    (role : Role) (token : String) (now : Nat) : (Except ApiError Membership) × DB :=
  match findFirst (fun g => g.id = group_id) db.groups with
  | none => (.error ⟨.notFound, "Group not found"⟩, db)
  | some _ =>
    match findFirst (fun m => m.group_id = group_id ∧ m.user_id = some invited_by ∧
        m.status = MStatus.active) db.memberships with
    | none => (.error ⟨.forbidden, "Insufficient permissions to invite users"⟩, db)
    | some inviterMembership =>
      if inviterMembership.role ≠ Role.admin ∧ inviterMembership.role ≠ Role.editor then
        (.error ⟨.forbidden, "Insufficient permissions to invite users"⟩, db)
      else
        match findFirst (fun m => m.group_id = group_id ∧
            m.invitee_phone = some invitee_phone ∧ m.status = MStatus.pending) db.memberships with
        | some _ => (.error ⟨.conflict, "Invitation already exists for this phone number"⟩, db)
        | none =>
          let m : Membership :=
            { id := db.nextId
              user_id := none
              group_id := group_id
              invitee_phone := some invitee_phone
              invited_by := invited_by
              status := .pending
              role := role
              token := some token
              expiration_date := some (now + sevenDaysMs)
              accepted_at := none }
          let created : (Except ApiError Membership) × DB :=
            (.ok m, { db with memberships := db.memberships ++ [m], nextId := db.nextId + 1 })
          match findFirst (fun u => u.phoneNumber = invitee_phone) db.users with
          | none => created
          | some existingUser =>
            match findFirst (fun x => x.group_id = group_id ∧ x.user_id = some existingUser.id ∧
                x.status = MStatus.active) db.memberships with
            | some _ => (.error ⟨.conflict, "User is already a member of this group"⟩, db)
            | none => created

/-- `acceptMembershipInvitation(token, userId)`: pending lookup by token,
expiry check against `now`, then activation clearing token and expiry. -/
def acceptMembershipInvitation (db : DB) (token : String) (userId : Nat) (now : Nat) :
    (Except ApiError Membership) × DB :=
  match findFirst (fun m => m.token = some token ∧ m.status = MStatus.pending) db.memberships with
  | none => (.error ⟨.notFound, "Invalid or expired invitation token"⟩, db)
  | some membership =>
    let expired := match membership.expiration_date with
      | some d => decide (d < now)
      | none => false
    if expired then (.error ⟨.badRequest, "Invitation has expired"⟩, db)
    else
      saveMembership db
        { membership with
          user_id := some userId
          status := .active
          accepted_at := some now
          token := none
          expiration_date := none }

/-- `updateMembershipRole(membershipId, newRole, updaterId)`.  The last-admin
guard fires only when an admin retargets their own membership; JS reads
`membership.user_id.toString()` before the role test, so a null `user_id`
target is a `TypeError`. -/
def updateMembershipRole (db : DB) (membershipId : Nat) (newRole : Role) (updaterId : Nat) :
    (Except ApiError Membership) × DB :=
  match findFirst (fun m => m.id = membershipId) db.memberships with
  | none => (.error ⟨.notFound, "Membership not found"⟩, db)
  | some membership =>
    match findFirst (fun m => m.group_id = membership.group_id ∧ m.user_id = some updaterId ∧
        m.status = MStatus.active) db.memberships with
    | none => (.error ⟨.forbidden, "Only admins can change member roles"⟩, db)
    | some updaterMembership =>
      if updaterMembership.role ≠ Role.admin then
        (.error ⟨.forbidden, "Only admins can change member roles"⟩, db)
      else
        match membership.user_id with
        | none => (.error ⟨.internal, "TypeError: membership.user_id is null"⟩, db)
        | some targetUser =>
          if targetUser = updaterId ∧ membership.role = Role.admin then
            if countMatching (fun m => m.group_id = membership.group_id ∧
                m.role = Role.admin ∧ m.status = MStatus.active) db.memberships ≤ 1 then
              (.error ⟨.badRequest, "Cannot change role: group must have at least one admin"⟩, db)
            else saveMembership db { membership with role := newRole }
          else saveMembership db { membership with role := newRole }

/-- `removeMember(membershipId, removerId)`: same admin gate and self-target
last-admin guard as `updateMembershipRole`, finishing in `status = removed`
(soft delete). -/
def removeMember (db : DB) (membershipId : Nat) (removerId : Nat) :
    (Except ApiError Membership) × DB :=
  match findFirst (fun m => m.id = membershipId) db.memberships with
  | none => (.error ⟨.notFound, "Membership not found"⟩, db)
  | some membership =>
    match findFirst (fun m => m.group_id = membership.group_id ∧ m.user_id = some removerId ∧
        m.status = MStatus.active) db.memberships with
    | none => (.error ⟨.forbidden, "Only admins can remove members"⟩, db)
    | some removerMembership =>
      if removerMembership.role ≠ Role.admin then
        (.error ⟨.forbidden, "Only admins can remove members"⟩, db)
      else
        match membership.user_id with
        | none => (.error ⟨.internal, "TypeError: membership.user_id is null"⟩, db)
        | some targetUser =>
          if targetUser = removerId ∧ membership.role = Role.admin then
            if countMatching (fun m => m.group_id = membership.group_id ∧
                m.role = Role.admin ∧ m.status = MStatus.active) db.memberships ≤ 1 then
              (.error ⟨.badRequest, "Cannot remove yourself: group must have at least one admin"⟩, db)
            else saveMembership db { membership with status := .removed }
          else saveMembership db { membership with status := .removed }

/-! ## List consistency manager (`list.service.js`) -/

/-- The body accepted by `List.create` / `createList`. -/
structure ListBody where
  name : String
  description : Option String
  groupId : Nat
  isDefault : Bool
  createdBy : Nat
  allowItemDeletion : Bool
  requireApprovalForItems : Bool
deriving DecidableEq, Repr

/-- `List.create(listBody)`: schema validation, then the `listSchema.pre('save')`
hook (a *new* default list steals the default flag from the first existing
default list of the group), then insert with a fresh id. -/
def listCreate (db : DB) (body : ListBody) : (Except ApiError ListDoc) × DB :=
  let nm := jsTrim body.name
  let ds := trimOpt body.description
  if nm = "" ∨ 100 < nm.length ∨ 500 < (ds.getD "").length then
    (.error ⟨.internal, "ValidationError: List"⟩, db)
  else
    let hooked :=
      if body.isDefault then
        match findFirst (fun l => l.groupId = body.groupId ∧ l.isDefault = true) db.lists with
        | some l0 => updateWhere (fun l => l.id = l0.id) (fun l => { l with isDefault := false }) db.lists
        | none => db.lists
      else db.lists
    let doc : ListDoc :=
      { id := db.nextId
        name := nm
        description := ds
        groupId := body.groupId
        isDefault := body.isDefault
        createdBy := body.createdBy
        allowItemDeletion := body.allowItemDeletion
        requireApprovalForItems := body.requireApprovalForItems
        items := [] }
    (.ok doc, { db with lists := hooked ++ [doc], nextId := db.nextId + 1 })

/-- `createList(body)`: requires an active membership of `createdBy` in the
target group; a default-flagged body first clears `isDefault` on every other
list of the group (`updateMany`), then inserts. -/
def createList (db : DB) (body : ListBody) : (Except ApiError ListDoc) × DB :=
  match findFirst (fun m => m.user_id = some body.createdBy ∧ m.group_id = body.groupId ∧
      m.status = MStatus.active) db.memberships with
  | none => (.error ⟨.forbidden, "You are not a member of this group"⟩, db)
  | some _ =>
    let db1 :=
      if body.isDefault then
        let cleared := updateWhere (fun l => l.groupId = body.groupId ∧ l.isDefault = true)
          (fun l => { l with isDefault := false }) db.lists
        { db with lists := cleared }
      else db
    listCreate db1 body

/-- `getListById(id, userId)`: list lookup, then (when a user is supplied) an
active-membership gate for the list's group. -/
def getListByIdSvc (db : DB) (id : Nat) (userId : Option Nat) : Except ApiError ListDoc :=
  match findFirst (fun l => l.id = id) db.lists with
  | none => .error ⟨.notFound, "List not found"⟩
  | some list =>
    match userId with
    | none => .ok list
    | some uid =>
      match findFirst (fun m => m.user_id = some uid ∧ m.group_id = list.groupId ∧
          m.status = MStatus.active) db.memberships with
      | none => .error ⟨.forbidden, "You are not a member of this group"⟩
      | some _ => .ok list

/-- The subset of fields `updateListById` callers may merge into a list
(`Object.assign(list, updateBody)`); absent fields are left untouched. -/
structure ListUpdateBody where
  name : Option String
  description : Option String
  isDefault : Option Bool
deriving DecidableEq, Repr

/-- `Object.assign(list, updateBody)` followed by the schema's `trim` setters. -/
def applyListUpdate (l : ListDoc) (b : ListUpdateBody) : ListDoc :=
  { l with
    name := match b.name with | some n => jsTrim n | none => l.name
    description := match b.description with | some d => some (jsTrim d) | none => l.description
    isDefault := b.isDefault.getD l.isDefault }

/-- `updateListById(listId, updateBody, userId)`: list+membership gate, the
creator-or-admin permission rule, an `updateMany` clearing `isDefault` on the
*other* lists of the group when the update sets a truthy `isDefault`, then the
merge and save. -/
def updateListById (db : DB) (listId : Nat) (b : ListUpdateBody) (userId : Nat) :
    (Except ApiError ListDoc) × DB :=
  match getListByIdSvc db listId (some userId) with
  | .error e => (.error e, db)
  | .ok list =>
    match findFirst (fun m => m.user_id = some userId ∧ m.group_id = list.groupId ∧
        m.status = MStatus.active) db.memberships with
    | none => (.error ⟨.forbidden, "You do not have permission to update this list"⟩, db)
    | some membership =>
      if list.createdBy ≠ userId ∧ membership.role ≠ Role.admin then
        (.error ⟨.forbidden, "You do not have permission to update this list"⟩, db)
      else
        let db1 :=
          if b.isDefault = some true then
            let cleared := updateWhere
              (fun l => l.groupId = list.groupId ∧ l.isDefault = true ∧ l.id ≠ listId)
              (fun l => { l with isDefault := false }) db.lists
            { db with lists := cleared }
          else db
        saveList db1 (applyListUpdate list b)

/-! ## Group lifecycle (`group.service.js`: `createGroup`) -/

/-- The body accepted by `createGroup`. -/
structure GroupBody where
  name : String
  description : Option String
  createdBy : Option Nat
  ownerId : Option Nat
  isPersonal : Bool
  allowInvitations : Bool
  requireApproval : Bool
deriving DecidableEq, Repr

/-- The in-place body mutation at the top of `createGroup`: `ownerId` is
defaulted from `createdBy` when absent. -/
def defaultOwner (body : GroupBody) : GroupBody :=
  if body.createdBy.isSome ∧ body.ownerId = none then
    { body with ownerId := body.createdBy } else body

/-- `createGroup(groupBody, options)` without a caller-provided session: the
group, the creator's admin membership and the default list are one atomic
unit (an inner failure aborts the transaction, returning the original state
with the original error), while the hashicon step runs only after commit and
its failure is swallowed.  `iconResult` is the outcome of the external
`generateAndUploadHashicon` call (`none` = the call failed). -/
def createGroup (db : DB) (body : GroupBody) (skipMembership skipList skipHashicon : Bool)
    (now : Nat) (iconResult : Option String) : (Except ApiError Group) × DB :=
  let body := defaultOwner body
  let nm := jsTrim body.name
  let ds := trimOpt body.description
  if nm = "" ∨ 100 < nm.length ∨ 500 < (ds.getD "").length then
    (.error ⟨.internal, "ValidationError: Group"⟩, db)
  else
    let group : Group :=
      { id := db.nextId
        name := nm
        description := ds
        createdBy := body.createdBy
        ownerId := body.ownerId
        isPersonal := body.isPersonal
        allowInvitations := body.allowInvitations
        requireApproval := body.requireApproval
        iconUrl := none }
    let db1 : DB := { db with groups := db.groups ++ [group], nextId := db.nextId + 1 }
    let stepMembership : (Except ApiError Unit) × DB :=
      if skipMembership then (.ok (), db1)
      else
        match body.createdBy with
        | none => (.ok (), db1)
        | some u =>
          let m : Membership :=
            { id := db1.nextId
              user_id := some u
              group_id := group.id
              invitee_phone := none
              invited_by := u
              status := .active
              role := .admin
              token := none
              expiration_date := none
              accepted_at := some now }
          if membershipValid m then
            (.ok (), { db1 with memberships := db1.memberships ++ [m], nextId := db1.nextId + 1 })
          else (.error ⟨.internal, "ValidationError: Membership"⟩, db1)
    match stepMembership with
    | (.error e, _) => (.error e, db)
    | (.ok _, db2) =>
      let stepList : (Except ApiError Unit) × DB :=
        if skipList then (.ok (), db2)
        else
          match body.createdBy with
          | none => (.ok (), db2)
          | some u =>
            match listCreate db2
              { name := "Default List"
                description := some "Default list for this group"
                groupId := group.id
                isDefault := true
                createdBy := u
                allowItemDeletion := true
                requireApprovalForItems := false } with
            | (.error e, _) => (.error e, db2)
            | (.ok _, db3) => (.ok (), db3)
      match stepList with
      | (.error e, _) => (.error e, db)
      | (.ok _, db3) =>
        if skipHashicon then (.ok group, db3)
        else
          match iconResult with
          | none => (.ok group, db3)
          | some url =>
            let withIcon := { group with iconUrl := some url }
            (.ok withIcon,
              { db3 with groups := updateWhere (fun g => g.id = group.id) (fun _ => withIcon) db3.groups })

/-! ## WhatsApp-agent list surface (`userComm.service.js`:
`addItemsToList`, `removeItemsFromList`) -/

/-- The object `addItemsToList` resolves with. -/
structure AddItemsResult where
  list : ListDoc
  itemsAdded : Nat
  itemsSkipped : Nat
  duplicateItems : Option (List String)
  message : String
deriving DecidableEq, Repr

/-- The per-candidate loop of `addItemsToList`: `seen` threads the normalised
texts of the existing items plus the batch items admitted so far, `dups` and
`toAdd` accumulate the trimmed duplicate/new texts in batch order, and an
empty (in JS also a non-string) candidate throws `BadRequest` for the whole
call. -/
def partitionItems (seen dups toAdd : List String) (idx : Nat) :
    List String → Except ApiError (List String × List String)
  | [] => .ok (toAdd, dups)
  | t :: ts =>
    if jsTrim t = "" then
      .error ⟨.badRequest, "Item at index " ++ toString idx ++ " must be a non-empty string"⟩
    else if norm t ∈ seen then
      partitionItems seen (dups ++ [jsTrim t]) toAdd (idx + 1) ts
    else
      partitionItems (seen ++ [norm t]) dups (toAdd ++ [jsTrim t]) (idx + 1) ts

/-- The new item subdocuments pushed by `addItemsToList`, with consecutive
`order` values starting at `startOrder` and fresh subdocument ids. -/
def buildItems (firstName : String) (startOrder startId : Nat) : List String → List Item
  | [] => []
  | t :: ts =>
    { id := startId
      text := t
      isCompleted := false
      addedBy := firstName
      completedBy := none
      completedAt := none
      order := startOrder } :: buildItems firstName (startOrder + 1) (startId + 1) ts

/-- `Math.max(...list.items.map(item => item.order || 0))` for a non-empty
item list (orders are `Nat`, so folding from `0` yields the maximum). -/
def maxOrder (items : List Item) : Nat :=
  items.foldl (fun acc it => Nat.max acc it.order) 0

/-- `addItemsToList(listId, phoneNumber, items)`: phone→user, list and
membership gates, then the normalise-and-partition pass; duplicates are
reported, not fatal, and an all-duplicates batch returns early without
saving. -/
def addItemsToList (db : DB) (listId phoneNumber : Nat) (items : List String) :
    (Except ApiError AddItemsResult) × DB :=
  match findFirst (fun u => u.phoneNumber = phoneNumber) db.users with
  | none => (.error ⟨.notFound, "Phone number is not linked to any user"⟩, db)
  | some user =>
    match findFirst (fun l => l.id = listId) db.lists with
    | none => (.error ⟨.notFound, "List not found"⟩, db)
    | some list =>
      match findFirst (fun m => m.user_id = some user.id ∧ m.group_id = list.groupId ∧
          m.status = MStatus.active) db.memberships with
      | none => (.error ⟨.forbidden, "User is not a member of this group"⟩, db)
      | some _ =>
        if items = [] then
          (.error ⟨.badRequest, "Items array is required and must not be empty"⟩, db)
        else
          match partitionItems (list.items.map (fun it => norm it.text)) [] [] 0 items with
          | .error e => (.error e, db)
          | .ok (toAdd, dups) =>
            if toAdd = [] then
              (.ok { list := list
                     itemsAdded := 0
                     itemsSkipped := dups.length
                     duplicateItems := some dups
                     message := match dups with
                       | [d] => "\"" ++ d ++ "\" is already in the list"
                       | _ => "All items are already in the list: " ++
                           String.intercalate ", " dups }, db)
            else
              let nextOrder := if 0 < list.items.length then maxOrder list.items + 1 else 1
              let list' := { list with
                items := list.items ++ buildItems user.firstName nextOrder db.nextId toAdd }
              match saveList { db with nextId := db.nextId + toAdd.length } list' with
              | (.error e, _) => (.error e, db)
              | (.ok saved, db') =>
                (.ok { list := saved
                       itemsAdded := toAdd.length
                       itemsSkipped := dups.length
                       duplicateItems := if dups = [] then none else some dups
                       message :=
                         if dups = [] then
                           "Added " ++ toString toAdd.length ++ " item(s) to the list"
                         else
                           "Added " ++ toString toAdd.length ++ " item(s). " ++
                             toString dups.length ++ " item(s) already in list: " ++
                             String.intercalate ", " dups }, db')

/-- The object `removeItemsFromList` resolves with. -/
structure RemoveItemsResult where
  list : ListDoc
  removedCount : Nat
  message : String
deriving DecidableEq, Repr

/-- `removeItemsFromList(listId, phoneNumber, itemTexts)`: same gates, then a
case-insensitive trimmed filter; zero matches is `NotFound` and nothing is
saved. -/
def removeItemsFromList (db : DB) (listId phoneNumber : Nat) (itemTexts : List String) :
    (Except ApiError RemoveItemsResult) × DB :=
  match findFirst (fun u => u.phoneNumber = phoneNumber) db.users with
  | none => (.error ⟨.notFound, "Phone number is not linked to any user"⟩, db)
  | some user =>
    match findFirst (fun l => l.id = listId) db.lists with
    | none => (.error ⟨.notFound, "List not found"⟩, db)
    | some list =>
      match findFirst (fun m => m.user_id = some user.id ∧ m.group_id = list.groupId ∧
          m.status = MStatus.active) db.memberships with
      | none => (.error ⟨.forbidden, "User is not a member of this group"⟩, db)
      | some _ =>
        if itemTexts = [] then
          (.error ⟨.badRequest, "Item texts array is required and must not be empty"⟩, db)
        else
          let itemsToRemove := itemTexts.map norm
          let kept := selectAll (fun it => norm it.text ∉ itemsToRemove) list.items
          let removedCount := list.items.length - kept.length
          if removedCount = 0 then
            (.error ⟨.notFound, "No matching items found to remove"⟩, db)
          else
            match saveList db { list with items := kept } with
            | (.error e, _) => (.error e, db)
            | (.ok saved, db') =>
              (.ok { list := saved
                     removedCount := removedCount
                     message := "Removed " ++ toString removedCount ++
                       " item(s) from the list" }, db')

/-! ## Derived notions used by the claims -/

/-- `m` is an active admin membership of group `gid`: the predicate of the
last-admin `countDocuments` query. -/
def isActiveAdminOf (gid : Nat) (m : Membership) : Prop :=
  m.group_id = gid ∧ m.role = Role.admin ∧ m.status = MStatus.active

instance (gid : Nat) (m : Membership) : Decidable (isActiveAdminOf gid m) := by
  unfold isActiveAdminOf
  exact inferInstance

/-- Group `gid` has at least one active admin membership. -/
def hasActiveAdmin (db : DB) (gid : Nat) : Prop :=
  ∃ m ∈ db.memberships, isActiveAdminOf gid m

/-- Stored membership documents have pairwise distinct ids (Mongo `_id`s are
unique). -/
def membershipIdsNodup (db : DB) : Prop :=
  (db.memberships.map Membership.id).Nodup

/-- A role-change or member-removal request, for quantifying over sequences
of such operations. -/
inductive MemberOp where
  | changeRole (membershipId : Nat) (newRole : Role) (updaterId : Nat)
  | removeMem (membershipId : Nat) (removerId : Nat)
deriving DecidableEq, Repr

/-- Run one request against the datastore; a rejected request leaves the
state exactly as the service returned it (unchanged). -/
def applyMemberOp (db : DB) : MemberOp → DB
  | .changeRole mid r uid => (updateMembershipRole db mid r uid).2
  | .removeMem mid uid => (removeMember db mid uid).2

/-- Run a whole sequence of role-change / removal requests. -/
def applyMemberOps (db : DB) (ops : List MemberOp) : DB :=
  ops.foldl applyMemberOp db

/-- The document produced by a successful `acceptMembershipInvitation`:
activated for `uid` at time `now`, token and expiration cleared. -/
def acceptedDoc (m : Membership) (uid now : Nat) : Membership :=
  { m with
    user_id := some uid
    status := .active
    accepted_at := some now
    token := none
    expiration_date := none }

/-- The state after a successful `acceptMembershipInvitation` on `m`. -/
def acceptedState (db : DB) (m : Membership) (uid now : Nat) : DB :=
  { db with memberships :=
      updateWhere (fun x => x.id = m.id) (fun _ => acceptedDoc m uid now) db.memberships }

/-! ## Concrete sample states (for the closed instantiations) -/

/-- Sample user: the group creator. -/
def uAna : User := { id := 1, firstName := "Ana", phoneNumber := 555 }

/-- Sample user: a second, non-creator member. -/
def uBea : User := { id := 9, firstName := "Bea", phoneNumber := 666 }

/-- Sample group created by `uAna`. -/
def gHome : Group :=
  { id := 0
    name := "Home"
    description := none
    createdBy := some 1
    ownerId := some 1
    isPersonal := false
    allowInvitations := true
    requireApproval := false
    iconUrl := none }

/-- `uAna`'s active admin membership in `gHome`. -/
def mAdmin : Membership :=
  { id := 2
    user_id := some 1
    group_id := 0
    invitee_phone := none
    invited_by := 1
    status := .active
    role := .admin
    token := none
    expiration_date := none
    accepted_at := some 0 }

/-- `uBea`'s active editor membership in `gHome`. -/
def mEditor : Membership :=
  { id := 7
    user_id := some 9
    group_id := 0
    invitee_phone := none
    invited_by := 1
    status := .active
    role := .editor
    token := none
    expiration_date := none
    accepted_at := some 0 }

/-- A pending invitation in `gHome` for phone `777`, token `"tok"`, expiring
at time `1000`. -/
def mPending : Membership :=
  { id := 5
    user_id := none
    group_id := 0
    invitee_phone := some 777
    invited_by := 1
    status := .pending
    role := .editor
    token := some "tok"
    expiration_date := some 1000
    accepted_at := none }

/-- The default list of `gHome`, with no items. -/
def lMain : ListDoc :=
  { id := 3
    name := "Default List"
    description := none
    groupId := 0
    isDefault := true
    createdBy := 1
    allowItemDeletion := true
    requireApprovalForItems := false
    items := [] }

/-- A second, non-default list of `gHome`. -/
def lSecond : ListDoc :=
  { id := 4
    name := "Weekly"
    description := none
    groupId := 0
    isDefault := false
    createdBy := 1
    allowItemDeletion := true
    requireApprovalForItems := false
    items := [] }

/-- A stored item. -/
def itemBread : Item :=
  { id := 6
    text := "Bread"
    isCompleted := false
    addedBy := "Ana"
    completedBy := none
    completedAt := none
    order := 1 }

/-- A third list of `gHome` holding `itemBread`. -/
def lGroceries : ListDoc :=
  { id := 8
    name := "Groceries"
    description := none
    groupId := 0
    isDefault := false
    createdBy := 1
    allowItemDeletion := true
    requireApprovalForItems := false
    items := [itemBread] }

/-- A populated sample state. -/
def dbBase : DB :=
  { groups := [gHome]
    memberships := [mAdmin, mEditor]
    lists := [lMain, lSecond, lGroceries]
    users := [uAna, uBea]
    nextId := 10 }

/-- `dbBase` plus the pending invitation `mPending`. -/
def dbPending : DB :=
  { groups := [gHome]
    memberships := [mAdmin, mEditor, mPending]
    lists := [lMain, lSecond, lGroceries]
    users := [uAna, uBea]
    nextId := 10 }

/-- A state whose group has *no* membership row for its creator. -/
def dbNoMembership : DB :=
  { groups := [gHome]
    memberships := []
    lists := []
    users := [uAna]
    nextId := 10 }

/-- The empty state. -/
def dbEmpty : DB :=
  { groups := [], memberships := [], lists := [], users := [], nextId := 0 }

/-- `lGroceries` after its only item is removed. -/
def lGroceriesEmpty : ListDoc := { lGroceries with items := [] }

/-- The result of removing `" BREAD "` from `lGroceries`. -/
def rmBreadResult : RemoveItemsResult :=
  { list := lGroceriesEmpty
    removedCount := 1
    message := "Removed 1 item(s) from the list" }

/-- `dbBase` after that removal. -/
def dbAfterBread : DB :=
  { dbBase with lists := [lMain, lSecond, lGroceriesEmpty] }

/-- A list body for a new default list in `gHome`. -/
def bodyParty : ListBody :=
  { name := "Party"
    description := none
    groupId := 0
    isDefault := true
    createdBy := 1
    allowItemDeletion := true
    requireApprovalForItems := false }

/-- The document `createList` inserts for `bodyParty` on `dbBase`. -/
def lParty : ListDoc :=
  { id := 10
    name := "Party"
    description := none
    groupId := 0
    isDefault := true
    createdBy := 1
    allowItemDeletion := true
    requireApprovalForItems := false
    items := [] }

/-- `dbBase` after `createList bodyParty`: the old default is cleared and the
new default appended. -/
def dbParty : DB :=
  { dbBase with
    lists := [{ lMain with isDefault := false }, lSecond, lGroceries, lParty]
    nextId := 11 }

/-- `lSecond` after being promoted to the default list. -/
def lSecondDefault : ListDoc := { lSecond with isDefault := true }

/-- `dbBase` after `updateListById` promotes `lSecond` to default: the old
default `lMain` is cleared. -/
def dbSwitched : DB :=
  { dbBase with lists := [{ lMain with isDefault := false }, lSecondDefault, lGroceries] }

/-- The creator's self-membership document `createGroup` inserts: active
admin, self-invited, accepted at creation time. -/
def adminDoc (id gid u now : Nat) : Membership :=
  { id := id
    user_id := some u
    group_id := gid
    invitee_phone := none
    invited_by := u
    status := .active
    role := .admin
    token := none
    expiration_date := none
    accepted_at := some now }

/-- The default list document `createGroup` inserts. -/
def defaultListDoc (id gid u : Nat) : ListDoc :=
  { id := id
    name := "Default List"
    description := some "Default list for this group"
    groupId := gid
    isDefault := true
    createdBy := u
    allowItemDeletion := true
    requireApprovalForItems := false
    items := [] }

/-- A well-formed `createGroup` body whose `ownerId` is left to default. -/
def gBody : GroupBody :=
  { name := "Casa"
    description := none
    createdBy := some 1
    ownerId := none
    isPersonal := false
    allowInvitations := true
    requireApproval := false }

/-- The group document `createGroup dbEmpty gBody` produces. -/
def gCasa : Group :=
  { id := 0
    name := "Casa"
    description := none
    createdBy := some 1
    ownerId := some 1
    isPersonal := false
    allowInvitations := true
    requireApproval := false
    iconUrl := none }

/-- The state after `createGroup dbEmpty gBody` with `skipMembership = true`:
the group exists but no membership document was created. -/
def dbCasaSkipped : DB :=
  { groups := [gCasa], memberships := [], lists := [], users := [], nextId := 1 }

/-- The state after a full `createGroup dbEmpty gBody` at time `5`. -/
def dbCasaFull : DB :=
  { groups := [gCasa]
    memberships := [adminDoc 1 0 1 5]
    lists := [defaultListDoc 2 0 1]
    users := []
    nextId := 3 }

/-- The pending document `createMembershipInvitation` inserts. -/
def pendingDoc (id gid phone inviter : Nat) (role : Role) (tok : String) (exp : Nat) :
    Membership :=
  { id := id
    user_id := none
    group_id := gid
    invitee_phone := some phone
    invited_by := inviter
    status := .pending
    role := role
    token := some tok
    expiration_date := some exp
    accepted_at := none }

/-- The pending document produced by inviting phone `777` to `gHome` on
`dbBase` with token `"t1"` at time `100`. -/
def mInvited : Membership :=
  { id := 10
    user_id := none
    group_id := 0
    invitee_phone := some 777
    invited_by := 1
    status := .pending
    role := .editor
    token := some "t1"
    expiration_date := some 604800100
    accepted_at := none }

/-- `dbBase` after that first invitation. -/
def dbInvited : DB :=
  { dbBase with memberships := dbBase.memberships ++ [mInvited], nextId := 11 }

/-! ## Lemmas about the query primitives -/

theorem findFirst_eq_some {p : α → Prop} [DecidablePred p] {l : List α} {a : α}
    (h : findFirst p l = some a) : a ∈ l ∧ p a := by
  induction l with
  | nil => simp [findFirst] at h
  | cons x xs ih =>
    by_cases hx : p x
    · simp [findFirst, hx] at h
      subst h
      exact ⟨List.mem_cons_self x xs, hx⟩
    · simp [findFirst, hx] at h
      rcases ih h with ⟨hm, hp⟩
      exact ⟨List.mem_cons_of_mem x hm, hp⟩

theorem findFirst_eq_none {p : α → Prop} [DecidablePred p] {l : List α}
    (h : ∀ a ∈ l, ¬ p a) : findFirst p l = none := by
  induction l with
  | nil => rfl
  | cons x xs ih =>
    have hx : ¬ p x := h x (List.mem_cons_self x xs)
    simp only [findFirst, if_neg hx]
    exact ih fun a ha => h a (List.mem_cons_of_mem x ha)

theorem findFirst_isSome {p : α → Prop} [DecidablePred p] {l : List α}
    (h : ∃ a ∈ l, p a) : ∃ b, findFirst p l = some b := by
  induction l with
  | nil => simp at h
  | cons x xs ih =>
    by_cases hx : p x
    · exact ⟨x, by simp [findFirst, hx]⟩
    · simp only [findFirst, if_neg hx]
      apply ih
      rcases h with ⟨a, ha, hpa⟩
      rcases List.mem_cons.mp ha with rfl | ha'
      · exact absurd hpa hx
      · exact ⟨a, ha', hpa⟩

theorem findFirst_unique {p : α → Prop} [DecidablePred p] {l : List α} {m : α}
    (hm : m ∈ l) (hpm : p m) (huniq : ∀ x ∈ l, p x → x = m) :
    findFirst p l = some m := by
  induction l with
  | nil => cases hm
  | cons x xs ih =>
    by_cases hx : p x
    · have hxm : x = m := huniq x (List.mem_cons_self x xs) hx
      subst hxm
      simp [findFirst, hx]
    · have hm' : m ∈ xs := by
        rcases List.mem_cons.mp hm with h | h
        · exact absurd (h ▸ hpm) hx
        · exact h
      simp only [findFirst, if_neg hx]
      exact ih hm' fun a ha hpa => huniq a (List.mem_cons_of_mem x ha) hpa

theorem findFirst_append_left {p : α → Prop} [DecidablePred p] {l₁ l₂ : List α} {a : α}
    (h : findFirst p l₁ = some a) : findFirst p (l₁ ++ l₂) = some a := by
  induction l₁ with
  | nil => simp [findFirst] at h
  | cons x xs ih =>
    by_cases hx : p x
    · rw [List.cons_append]
      simp only [findFirst, if_pos hx] at h ⊢
      exact h
    · rw [List.cons_append]
      simp only [findFirst, if_neg hx] at h
      simp only [findFirst, if_neg hx]
      exact ih h

theorem findFirst_append_none {p : α → Prop} [DecidablePred p] {l₁ l₂ : List α}
    (h : findFirst p l₁ = none) : findFirst p (l₁ ++ l₂) = findFirst p l₂ := by
  induction l₁ with
  | nil => rfl
  | cons x xs ih =>
    by_cases hx : p x
    · simp [findFirst, hx] at h
    · simp only [findFirst, if_neg hx] at h
      simp only [List.cons_append, findFirst, if_neg hx]
      exact ih h

theorem mem_selectAll {p : α → Prop} [DecidablePred p] {l : List α} {a : α} :
    a ∈ selectAll p l ↔ a ∈ l ∧ p a := by
  induction l with
  | nil => simp [selectAll]
  | cons x xs ih =>
    by_cases hx : p x
    · simp only [selectAll, if_pos hx, List.mem_cons, ih]
      constructor
      · rintro (rfl | ⟨h1, h2⟩)
        · exact ⟨Or.inl rfl, hx⟩
        · exact ⟨Or.inr h1, h2⟩
      · rintro ⟨rfl | h1, h2⟩
        · exact Or.inl rfl
        · exact Or.inr ⟨h1, h2⟩
    · simp only [selectAll, if_neg hx, ih, List.mem_cons]
      constructor
      · rintro ⟨h1, h2⟩
        exact ⟨Or.inr h1, h2⟩
      · rintro ⟨rfl | h1, h2⟩
        · exact absurd h2 hx
        · exact ⟨h1, h2⟩

theorem selectAll_append {p : α → Prop} [DecidablePred p] {l₁ l₂ : List α} :
    selectAll p (l₁ ++ l₂) = selectAll p l₁ ++ selectAll p l₂ := by
  induction l₁ with
  | nil => rfl
  | cons x xs ih =>
    by_cases hx : p x
    · simp [selectAll, hx, ih]
    · simp [selectAll, hx, ih]

theorem selectAll_eq_nil {p : α → Prop} [DecidablePred p] {l : List α}
    (h : ∀ a ∈ l, ¬ p a) : selectAll p l = [] := by
  induction l with
  | nil => rfl
  | cons x xs ih =>
    have hx : ¬ p x := h x (List.mem_cons_self x xs)
    simp only [selectAll, if_neg hx]
    exact ih fun a ha => h a (List.mem_cons_of_mem x ha)

theorem selectAll_eq_self {p : α → Prop} [DecidablePred p] {l : List α}
    (h : ∀ a ∈ l, p a) : selectAll p l = l := by
  induction l with
  | nil => rfl
  | cons x xs ih =>
    have hx : p x := h x (List.mem_cons_self x xs)
    simp only [selectAll, if_pos hx]
    rw [ih fun a ha => h a (List.mem_cons_of_mem x ha)]

theorem selectAll_length_split (p : α → Prop) [DecidablePred p] (l : List α) :
    (selectAll p l).length + (selectAll (fun a => ¬ p a) l).length = l.length := by
  induction l with
  | nil => rfl
  | cons x xs ih =>
    by_cases hx : p x
    · simp only [selectAll, if_pos hx, if_neg (not_not_intro hx), List.length_cons]
      omega
    · simp only [selectAll, if_neg hx, if_pos hx, List.length_cons]
      omega

theorem selectAll_length_le (p : α → Prop) [DecidablePred p] (l : List α) :
    (selectAll p l).length ≤ l.length := by
  induction l with
  | nil => exact Nat.le_refl 0
  | cons x xs ih =>
    by_cases hx : p x
    · simp only [selectAll, if_pos hx, List.length_cons]
      omega
    · simp only [selectAll, if_neg hx, List.length_cons]
      omega

theorem selectAll_unique {p : α → Prop} [DecidablePred p] {l : List α} {m : α}
    (f : α → β) (hnd : (l.map f).Nodup) (hm : m ∈ l) (hpm : p m)
    (huniq : ∀ x ∈ l, p x → x = m) : selectAll p l = [m] := by
  induction l with
  | nil => cases hm
  | cons x xs ih =>
    simp only [List.map_cons, List.nodup_cons] at hnd
    by_cases hx : p x
    · have hxm : x = m := huniq x (List.mem_cons_self x xs) hx
      subst hxm
      simp only [selectAll, if_pos hx]
      have : selectAll p xs = [] := by
        apply selectAll_eq_nil
        intro a ha hpa
        have : a = x := huniq a (List.mem_cons_of_mem x ha) hpa
        subst this
        exact hnd.1 (List.mem_map_of_mem f ha)
      rw [this]
    · have hm' : m ∈ xs := by
        rcases List.mem_cons.mp hm with h | h
        · exact absurd (h ▸ hpm) hx
        · exact h
      simp only [selectAll, if_neg hx]
      exact ih hnd.2 hm' fun a ha hpa => huniq a (List.mem_cons_of_mem x ha) hpa

theorem updateWhere_eq_map {p : α → Prop} [DecidablePred p] {f : α → α} {l : List α} :
    updateWhere p f l = l.map (fun a => if p a then f a else a) := by
  induction l with
  | nil => rfl
  | cons x xs ih => simp [updateWhere, ih]

theorem updateWhere_map_eq {p : α → Prop} [DecidablePred p] {f : α → α} {l : List α}
    (g : α → β) (h : ∀ a ∈ l, p a → g (f a) = g a) :
    (updateWhere p f l).map g = l.map g := by
  induction l with
  | nil => rfl
  | cons x xs ih =>
    simp only [updateWhere, List.map_cons]
    congr 1
    · by_cases hx : p x
      · rw [if_pos hx]
        exact h x (List.mem_cons_self x xs) hx
      · rw [if_neg hx]
    · exact ih fun a ha hpa => h a (List.mem_cons_of_mem x ha) hpa

theorem mem_updateWhere_self {p : α → Prop} [DecidablePred p] {f : α → α} {l : List α}
    {a : α} (ha : a ∈ l) (hpa : ¬ p a) : a ∈ updateWhere p f l := by
  induction l with
  | nil => cases ha
  | cons x xs ih =>
    rcases List.mem_cons.mp ha with rfl | ha'
    · simp only [updateWhere, if_neg hpa]
      exact List.mem_cons_self a _
    · exact List.mem_cons_of_mem _ (ih ha')

theorem mem_updateWhere_updated {p : α → Prop} [DecidablePred p] {f : α → α} {l : List α}
    {a : α} (ha : a ∈ l) (hpa : p a) : f a ∈ updateWhere p f l := by
  induction l with
  | nil => cases ha
  | cons x xs ih =>
    rcases List.mem_cons.mp ha with rfl | ha'
    · simp only [updateWhere, if_pos hpa]
      exact List.mem_cons_self (f a) _
    · exact List.mem_cons_of_mem _ (ih ha')

theorem updateWhere_eq_self {p : α → Prop} [DecidablePred p] {f : α → α} {l : List α}
    (h : ∀ a ∈ l, ¬ p a) : updateWhere p f l = l := by
  induction l with
  | nil => rfl
  | cons x xs ih =>
    have hx : ¬ p x := h x (List.mem_cons_self x xs)
    simp only [updateWhere, if_neg hx]
    rw [ih fun a ha => h a (List.mem_cons_of_mem x ha)]

/-! ## C3: the invitation token lifecycle of `acceptMembershipInvitation` -/

/-- C3: `acceptInvitation(token, userId)` succeeds exactly when a pending
membership carries the token and its expiration date is not in the past; on
success it sets `user_id`, `status = active`, `accepted_at = now` and clears
`token` and `expiration_date`; an expired pending token is rejected
`BadRequest` ("expired") and an unknown token `NotFound`, both leaving the
state unchanged; and when the token is unique, a second accept after a
successful first one fails `NotFound` (the token is single-use). -/
theorem acceptInvitation_token_lifecycle (db : DB) (t : String) (uid uid2 now now2 : Nat) :
    ((∀ x ∈ db.memberships, ¬ (x.token = some t ∧ x.status = MStatus.pending)) →
      acceptMembershipInvitation db t uid now =
        (.error ⟨.notFound, "Invalid or expired invitation token"⟩, db)) ∧
    (∀ m, findFirst (fun x => x.token = some t ∧ x.status = MStatus.pending) db.memberships = some m →
      (∀ d, m.expiration_date = some d → ¬ d < now) →
      acceptMembershipInvitation db t uid now =
        (.ok (acceptedDoc m uid now), acceptedState db m uid now) ∧
      ((∀ x ∈ db.memberships, x.token = some t → x = m) →
        (acceptMembershipInvitation (acceptMembershipInvitation db t uid now).2 t uid2 now2).1 =
          .error ⟨.notFound, "Invalid or expired invitation token"⟩)) ∧
    (∀ m d, findFirst (fun x => x.token = some t ∧ x.status = MStatus.pending) db.memberships = some m →
      m.expiration_date = some d → d < now →
      acceptMembershipInvitation db t uid now =
        (.error ⟨.badRequest, "Invitation has expired"⟩, db)) := by
  refine ⟨?_, ?_, ?_⟩
  · intro h
    have hff : findFirst (fun x => x.token = some t ∧ x.status = MStatus.pending) db.memberships = none :=
      findFirst_eq_none h
    simp only [acceptMembershipInvitation, hff]
  · intro m hff hlive
    have hok : acceptMembershipInvitation db t uid now =
        (.ok (acceptedDoc m uid now), acceptedState db m uid now) := by
      simp only [acceptMembershipInvitation, hff]
      have hexp : (match m.expiration_date with
          | some d => decide (d < now)
          | none => false) = false := by
        cases hd : m.expiration_date with
        | none => rfl
        | some d =>
          simp only [decide_eq_false_iff_not]
          exact hlive d hd
      rw [hexp]
      simp only [Bool.false_eq_true, if_false, saveMembership, acceptedDoc, acceptedState]
      rw [if_pos]
      constructor
      · intro hpend
        cases hpend
      · intro _ hnone
        cases hnone
    refine ⟨hok, ?_⟩
    intro huniq
    have hdb2 : (acceptMembershipInvitation db t uid now).2 = acceptedState db m uid now := by
      rw [hok]
    rw [hdb2]
    have hnone : findFirst (fun x => x.token = some t ∧ x.status = MStatus.pending)
        (acceptedState db m uid now).memberships = none := by
      apply findFirst_eq_none
      intro a ha
      simp only [acceptedState, updateWhere_eq_map] at ha
      rcases List.mem_map.mp ha with ⟨x, hx, hxa⟩
      by_cases hid : x.id = m.id
      · rw [if_pos hid] at hxa
        subst hxa
        rintro ⟨htk, _⟩
        simp only [acceptedDoc] at htk
        cases htk
      · rw [if_neg hid] at hxa
        subst hxa
        rintro ⟨htk, _⟩
        exact hid (by rw [huniq x hx htk])
    simp only [acceptMembershipInvitation, hnone]
  · intro m d hff hd hlt
    simp only [acceptMembershipInvitation, hff, hd]
    rw [if_pos]
    exact decide_eq_true hlt

/-- Closed instantiation of `acceptInvitation_token_lifecycle` on the sample
state: unknown token, live token, reuse after success, expired token. -/
theorem acceptInvitation_token_lifecycle_witness :
    (acceptMembershipInvitation dbPending "zzz" 9 500 =
      (.error ⟨.notFound, "Invalid or expired invitation token"⟩, dbPending)) ∧
    (acceptMembershipInvitation dbPending "tok" 9 500 =
      (.ok (acceptedDoc mPending 9 500), acceptedState dbPending mPending 9 500)) ∧
    ((acceptMembershipInvitation (acceptMembershipInvitation dbPending "tok" 9 500).2 "tok" 1 600).1 =
      .error ⟨.notFound, "Invalid or expired invitation token"⟩) ∧
    (acceptMembershipInvitation dbPending "tok" 9 2000 =
      (.error ⟨.badRequest, "Invitation has expired"⟩, dbPending)) := by
  refine ⟨?_, ?_, ?_, ?_⟩
  · exact (acceptInvitation_token_lifecycle dbPending "zzz" 9 1 500 600).1 (by decide)
  · exact ((acceptInvitation_token_lifecycle dbPending "tok" 9 1 500 600).2.1 mPending
      (by decide) (by decide)).1
  · exact ((acceptInvitation_token_lifecycle dbPending "tok" 9 1 500 600).2.1 mPending
      (by decide) (by decide)).2 (by decide)
  · exact (acceptInvitation_token_lifecycle dbPending "tok" 9 1 2000 600).2.2 mPending 1000
      (by decide) (by decide) (by decide)

/-! ## C5: duplicate-invitation and duplicate-member conflicts -/

/-- C5: `createInvitation` fails `NotFound` when the group is absent; with an
admin/editor inviter in place it fails `Conflict` when a pending invitation
for `(groupId, phone)` already exists, or when the user owning that phone
already holds an active membership in the group; and after a successful
invitation a second one for the same phone fails `Conflict` against the
then-pending document, adding nothing — every failure leaves the state
unchanged. -/
theorem createInvitation_conflict_rules (db : DB) (gid phone inviter : Nat) (role role2 : Role)
    (tok tok2 : String) (now now2 : Nat) :
    ((∀ g ∈ db.groups, ¬ g.id = gid) →
      createMembershipInvitation db gid phone inviter role tok now =
        (.error ⟨.notFound, "Group not found"⟩, db)) ∧
    (∀ g im, findFirst (fun x => x.id = gid) db.groups = some g →
      findFirst (fun m => m.group_id = gid ∧ m.user_id = some inviter ∧
        m.status = MStatus.active) db.memberships = some im →
      (im.role = Role.admin ∨ im.role = Role.editor) →
      ((∃ x ∈ db.memberships, x.group_id = gid ∧ x.invitee_phone = some phone ∧
          x.status = MStatus.pending) →
        createMembershipInvitation db gid phone inviter role tok now =
          (.error ⟨.conflict, "Invitation already exists for this phone number"⟩, db)) ∧
      (∀ u am, (∀ x ∈ db.memberships, ¬ (x.group_id = gid ∧ x.invitee_phone = some phone ∧
          x.status = MStatus.pending)) →
        findFirst (fun v => v.phoneNumber = phone) db.users = some u →
        findFirst (fun m => m.group_id = gid ∧ m.user_id = some u.id ∧
          m.status = MStatus.active) db.memberships = some am →
        createMembershipInvitation db gid phone inviter role tok now =
          (.error ⟨.conflict, "User is already a member of this group"⟩, db))) ∧
    (∀ m db2, createMembershipInvitation db gid phone inviter role tok now = (.ok m, db2) →
      createMembershipInvitation db2 gid phone inviter role2 tok2 now2 =
        (.error ⟨.conflict, "Invitation already exists for this phone number"⟩, db2)) := by
  refine ⟨?_, ?_, ?_⟩
  · intro h
    have hg : findFirst (fun x => x.id = gid) db.groups = none := findFirst_eq_none h
    simp only [createMembershipInvitation, hg]
  · intro g im hg him hrole
    have hrneg : ¬ (im.role ≠ Role.admin ∧ im.role ≠ Role.editor) := by
      rcases hrole with h | h
      · exact fun hc => hc.1 h
      · exact fun hc => hc.2 h
    constructor
    · intro hex
      rcases findFirst_isSome hex with ⟨b, hb⟩
      simp only [createMembershipInvitation, hg, him, if_neg hrneg, hb]
    · intro u am hnopend hu ham
      have hpn : findFirst (fun x => x.group_id = gid ∧ x.invitee_phone = some phone ∧
          x.status = MStatus.pending) db.memberships = none := findFirst_eq_none hnopend
      simp only [createMembershipInvitation, hg, him, if_neg hrneg, hpn, hu, ham]
  · intro m db2 h
    rcases hg : findFirst (fun x => x.id = gid) db.groups with _ | g
    · simp only [createMembershipInvitation, hg] at h
      simp at h
    rcases him : findFirst (fun x => x.group_id = gid ∧ x.user_id = some inviter ∧
        x.status = MStatus.active) db.memberships with _ | im
    · simp only [createMembershipInvitation, hg, him] at h
      simp at h
    by_cases hrneg : im.role ≠ Role.admin ∧ im.role ≠ Role.editor
    · simp only [createMembershipInvitation, hg, him, if_pos hrneg] at h
      simp at h
    rcases hpend : findFirst (fun x => x.group_id = gid ∧ x.invitee_phone = some phone ∧
        x.status = MStatus.pending) db.memberships with _ | pm
    · -- the first call really created the pending document
      have hcreated : m = pendingDoc db.nextId gid phone inviter role tok (now + sevenDaysMs) ∧
          db2 = { db with memberships := db.memberships ++ [m], nextId := db.nextId + 1 } := by
        rcases hu : findFirst (fun v => v.phoneNumber = phone) db.users with _ | u
        · simp only [createMembershipInvitation, hg, him, if_neg hrneg, hpend, hu,
            pendingDoc] at h ⊢
          simp only [Prod.mk.injEq, Except.ok.injEq] at h
          exact ⟨h.1.symm, by rw [← h.2, h.1]⟩
        · rcases ham : findFirst (fun x => x.group_id = gid ∧ x.user_id = some u.id ∧
              x.status = MStatus.active) db.memberships with _ | am
          · simp only [createMembershipInvitation, hg, him, if_neg hrneg, hpend, hu, ham,
              pendingDoc] at h ⊢
            simp only [Prod.mk.injEq, Except.ok.injEq] at h
            exact ⟨h.1.symm, by rw [← h.2, h.1]⟩
          · simp only [createMembershipInvitation, hg, him, if_neg hrneg, hpend, hu, ham] at h
            simp at h
      rcases hcreated with ⟨hm, hdb2⟩
      subst hdb2
      have hg2 : findFirst (fun x => x.id = gid)
          ({ db with memberships := db.memberships ++ [m], nextId := db.nextId + 1 } : DB).groups =
          some g := hg
      have him2 : findFirst (fun x => x.group_id = gid ∧ x.user_id = some inviter ∧
          x.status = MStatus.active) (db.memberships ++ [m]) = some im :=
        findFirst_append_left him
      have hpend2 : findFirst (fun x => x.group_id = gid ∧ x.invitee_phone = some phone ∧
          x.status = MStatus.pending) (db.memberships ++ [m]) = some m := by
        rw [findFirst_append_none hpend]
        have hpm : m.group_id = gid ∧ m.invitee_phone = some phone ∧
            m.status = MStatus.pending := by
          rw [hm]
          exact ⟨rfl, rfl, rfl⟩
        simp [findFirst, hpm]
      simp only [createMembershipInvitation, hg2, him2, if_neg hrneg, hpend2]
    · simp only [createMembershipInvitation, hg, him, if_neg hrneg, hpend] at h
      simp at h

/-- Closed instantiation of `createInvitation_conflict_rules`: absent group,
pending-invitation conflict, active-member conflict, and the double-invite
scenario. -/
theorem createInvitation_conflict_rules_witness :
    (createMembershipInvitation dbPending 99 777 1 .editor "t9" 100 =
      (.error ⟨.notFound, "Group not found"⟩, dbPending)) ∧
    (createMembershipInvitation dbPending 0 777 1 .editor "t9" 100 =
      (.error ⟨.conflict, "Invitation already exists for this phone number"⟩, dbPending)) ∧
    (createMembershipInvitation dbPending 0 666 1 .editor "t9" 100 =
      (.error ⟨.conflict, "User is already a member of this group"⟩, dbPending)) ∧
    (createMembershipInvitation dbInvited 0 777 1 .editor "t2" 200 =
      (.error ⟨.conflict, "Invitation already exists for this phone number"⟩, dbInvited)) := by
  refine ⟨?_, ?_, ?_, ?_⟩
  · exact (createInvitation_conflict_rules dbPending 99 777 1 .editor .editor "t9" "t9"
      100 100).1 (by decide)
  · exact (((createInvitation_conflict_rules dbPending 0 777 1 .editor .editor "t9" "t9"
      100 100).2.1 gHome mAdmin (by decide) (by decide) (Or.inl (by decide))).1 (by decide))
  · exact (((createInvitation_conflict_rules dbPending 0 666 1 .editor .editor "t9" "t9"
      100 100).2.1 gHome mAdmin (by decide) (by decide) (Or.inl (by decide))).2 uBea mEditor
      (by decide) (by decide) (by decide))
  · exact (createInvitation_conflict_rules dbBase 0 777 1 .editor .editor "t1" "t2"
      100 200).2.2 mInvited dbInvited (by rfl)

/-! ## C10: the invitation path has no creator-is-admin bypass -/

/-- C10: for a group whose creator holds no active membership row,
`createInvitation` invoked with `invitedBy` = the creator fails `Forbidden`
and creates nothing, because the inviter check queries the `Membership`
collection directly — while `checkRole` on the same state short-circuits the
creator to an admin mock. -/
theorem createInvitation_no_creator_bypass (db : DB) (gid phone c : Nat) (role : Role)
    (roles : List Role) (tok : String) (now : Nat) (g : Group)
    (hg : findFirst (fun x => x.id = gid) db.groups = some g)
    (hc : g.createdBy = some c)
    (hnomem : ∀ x ∈ db.memberships, ¬ (x.group_id = gid ∧ x.user_id = some c ∧
      x.status = MStatus.active)) :
    createMembershipInvitation db gid phone c role tok now =
      (.error ⟨.forbidden, "Insufficient permissions to invite users"⟩, db) ∧
    checkRole db gid c roles = .ok (creatorMock gid c) := by
  constructor
  · have hmem : findFirst (fun x => x.group_id = gid ∧ x.user_id = some c ∧
        x.status = MStatus.active) db.memberships = none := findFirst_eq_none hnomem
    simp only [createMembershipInvitation, hg, hmem]
  · simp [checkRole, hg, hc]

/-- Closed instantiation of `createInvitation_no_creator_bypass` on the state
whose group has no membership row for its creator. -/
theorem createInvitation_no_creator_bypass_witness :
    createMembershipInvitation dbNoMembership 0 777 1 .editor "t9" 100 =
      (.error ⟨.forbidden, "Insufficient permissions to invite users"⟩, dbNoMembership) ∧
    checkRole dbNoMembership 0 1 [Role.admin] = .ok (creatorMock 0 1) :=
  createInvitation_no_creator_bypass dbNoMembership 0 777 1 .editor [Role.admin] "t9" 100
    gHome (by decide) (by decide) (by decide)

/-! ## C6: role resolution in `checkRole` -/

/-- C6: `checkRole` resolves role = admin whenever the user is the group's
creator — even with no active membership row in the state; every other user
resolves to their active membership for `(groupId, userId)` (returned when
its role is allowed, rejected with the insufficient-permission diagnostic
otherwise), and absence of such a membership is a `Forbidden` authorization
failure, not a not-found error. -/
theorem checkRole_creator_bypass_and_membership (db : DB) (gid uid : Nat)
    (roles : List Role) (g : Group)
    (hg : findFirst (fun x => x.id = gid) db.groups = some g) :
    (g.createdBy = some uid → checkRole db gid uid roles = .ok (creatorMock gid uid)) ∧
    (∀ c m, g.createdBy = some c → c ≠ uid →
      findFirst (fun x => x.group_id = gid ∧ x.user_id = some uid ∧
        x.status = MStatus.active) db.memberships = some m →
      (m.role ∈ roles → checkRole db gid uid roles = .ok m) ∧
      (m.role ∉ roles → checkRole db gid uid roles = .error ⟨.forbidden,
        "Insufficient permissions. Required roles: " ++
          String.intercalate ", " (roles.map roleStr) ++
          ". User role: " ++ roleStr m.role⟩)) ∧
    (∀ c, g.createdBy = some c → c ≠ uid →
      (∀ x ∈ db.memberships, ¬ (x.group_id = gid ∧ x.user_id = some uid ∧
        x.status = MStatus.active)) →
      checkRole db gid uid roles =
        .error ⟨.forbidden, "User is not a member of this group"⟩) := by
  refine ⟨?_, ?_, ?_⟩
  · intro hc
    simp [checkRole, hg, hc]
  · intro c m hc hne hm
    constructor
    · intro hin
      simp only [checkRole, hg, hc, if_neg hne, checkRoleViaMembership, checkMembership, hm,
        if_pos hin]
    · intro hout
      simp only [checkRole, hg, hc, if_neg hne, checkRoleViaMembership, checkMembership, hm,
        if_neg hout]
  · intro c hc hne hnomem
    have hff : findFirst (fun x => x.group_id = gid ∧ x.user_id = some uid ∧
        x.status = MStatus.active) db.memberships = none := findFirst_eq_none hnomem
    simp only [checkRole, hg, hc, if_neg hne, checkRoleViaMembership, checkMembership, hff]

/-- Closed instantiation of `checkRole_creator_bypass_and_membership`:
creator bypass, editor resolution (allowed and rejected), and non-member. -/
theorem checkRole_creator_bypass_and_membership_witness :
    (checkRole dbNoMembership 0 1 [Role.admin] = .ok (creatorMock 0 1)) ∧
    (checkRole dbBase 0 9 [Role.admin, Role.editor] = .ok mEditor) ∧
    (checkRole dbBase 0 9 [Role.admin] = .error ⟨.forbidden,
      "Insufficient permissions. Required roles: " ++
        String.intercalate ", " ([Role.admin].map roleStr) ++
        ". User role: " ++ roleStr mEditor.role⟩) ∧
    (checkRole dbBase 0 42 [Role.admin] =
      .error ⟨.forbidden, "User is not a member of this group"⟩) := by
  refine ⟨?_, ?_, ?_, ?_⟩
  · exact (checkRole_creator_bypass_and_membership dbNoMembership 0 1 [Role.admin] gHome
      (by decide)).1 (by decide)
  · exact ((checkRole_creator_bypass_and_membership dbBase 0 9 [Role.admin, Role.editor] gHome
      (by decide)).2.1 1 mEditor (by decide) (by decide) (by decide)).1 (by decide)
  · exact ((checkRole_creator_bypass_and_membership dbBase 0 9 [Role.admin] gHome
      (by decide)).2.1 1 mEditor (by decide) (by decide) (by decide)).2 (by decide)
  · exact (checkRole_creator_bypass_and_membership dbBase 0 42 [Role.admin] gHome
      (by decide)).2.2 1 (by decide) (by decide) (by decide)

/-! ## C7: the allowed-roles test and the creator bypass -/

/-- C7 as stated is false on the code: the group creator passes `requireRole`
even when the resolved role (admin) is *not* in the allowed set, because the
creator short-circuit in `checkRole` runs before the allowed-roles test.
Here `allowedRoles = [contributor]`, the resolved role is admin, and the
check succeeds instead of failing. -/
theorem requireRole_creator_counterexample :
    requireRole dbNoMembership 0 1 [Role.contributor] = .ok (creatorMock 0 1) ∧
    (creatorMock 0 1).role ∉ [Role.contributor] := by
  constructor
  · rfl
  · decide

/-- C7 (amended): for every *non-creator* user, `requireRole` with a
non-empty allowed set fails with the insufficient-permission error carrying
the required set and the user's actual role whenever the resolved membership
role is not in the set; the group creator bypasses the allowed-roles test
and always passes with the admin mock. -/
theorem requireRole_insufficient_permission (db : DB) (gid uid : Nat) (roles : List Role)
    (g : Group) (c : Nat)
    (hroles : roles ≠ [])
    (hg : findFirst (fun x => x.id = gid) db.groups = some g)
    (hc : g.createdBy = some c) :
    (∀ m, c ≠ uid →
      findFirst (fun x => x.group_id = gid ∧ x.user_id = some uid ∧
        x.status = MStatus.active) db.memberships = some m →
      m.role ∉ roles →
      requireRole db gid uid roles = .error ⟨.forbidden,
        "Insufficient permissions. Required roles: " ++
          String.intercalate ", " (roles.map roleStr) ++
          ". User role: " ++ roleStr m.role⟩) ∧
    (c = uid → requireRole db gid uid roles = .ok (creatorMock gid uid)) := by
  constructor
  · intro m hne hm hout
    simp only [requireRole, if_neg hroles, checkRole, hg, hc, if_neg hne,
      checkRoleViaMembership, checkMembership, hm, if_neg hout]
  · intro hcu
    subst hcu
    simp [requireRole, if_neg hroles, checkRole, hg, hc]

/-- Closed instantiation of `requireRole_insufficient_permission`: the editor
is rejected with the diagnostic; the creator passes. -/
theorem requireRole_insufficient_permission_witness :
    (requireRole dbBase 0 9 [Role.admin] = .error ⟨.forbidden,
      "Insufficient permissions. Required roles: " ++
        String.intercalate ", " ([Role.admin].map roleStr) ++
        ". User role: " ++ roleStr mEditor.role⟩) ∧
    (requireRole dbBase 0 1 [Role.admin] = .ok (creatorMock 0 1)) := by
  constructor
  · exact (requireRole_insufficient_permission dbBase 0 9 [Role.admin] gHome 1
      (by decide) (by decide) (by decide)).1 mEditor (by decide) (by decide) (by decide)
  · exact (requireRole_insufficient_permission dbBase 0 1 [Role.admin] gHome 1
      (by decide) (by decide) (by decide)).2 rfl

/-! ## C9: `removeItemsFromList` removes exactly the matching items -/

/-- C9: with the phone, list and membership gates satisfied and a non-empty
request, `removeItemsFromList` fails `NotFound` and persists nothing when no
item's normalised text matches a requested text; otherwise it keeps exactly
the non-matching items (in order), removes all matching ones, and returns a
positive `removedCount` equal to the number of items removed. -/
theorem removeItems_matching_semantics (db : DB) (listId phone : Nat)
    (texts : List String) (u : User) (list : ListDoc) (mm : Membership)
    (hu : findFirst (fun v => v.phoneNumber = phone) db.users = some u)
    (hl : findFirst (fun l => l.id = listId) db.lists = some list)
    (hm : findFirst (fun m => m.user_id = some u.id ∧ m.group_id = list.groupId ∧
      m.status = MStatus.active) db.memberships = some mm)
    (htexts : texts ≠ []) :
    ((∀ it ∈ list.items, norm it.text ∉ texts.map norm) →
      removeItemsFromList db listId phone texts =
        (.error ⟨.notFound, "No matching items found to remove"⟩, db)) ∧
    (∀ r db2, removeItemsFromList db listId phone texts = (.ok r, db2) →
      r.list = { list with items := selectAll (fun it => norm it.text ∉ texts.map norm) list.items } ∧
      (∀ it, it ∈ r.list.items ↔ it ∈ list.items ∧ norm it.text ∉ texts.map norm) ∧
      r.removedCount + r.list.items.length = list.items.length ∧
      0 < r.removedCount ∧
      db2 = { db with lists := updateWhere (fun x => x.id = list.id) (fun _ => r.list) db.lists }) := by
  constructor
  · intro hall
    have hkept : selectAll (fun it => norm it.text ∉ texts.map norm) list.items = list.items :=
      selectAll_eq_self hall
    simp only [removeItemsFromList, hu, hl, hm, if_neg htexts, hkept, Nat.sub_self]
    simp
  · intro r db2 h
    simp only [removeItemsFromList, hu, hl, hm, if_neg htexts] at h
    by_cases hz : list.items.length -
        (selectAll (fun it => norm it.text ∉ texts.map norm) list.items).length = 0
    · rw [if_pos hz] at h
      simp at h
    · rw [if_neg hz] at h
      by_cases hv : listDocValid
          { list with items := selectAll (fun it => norm it.text ∉ texts.map norm) list.items }
      · simp only [saveList, if_pos hv] at h
        simp only [Prod.mk.injEq, Except.ok.injEq] at h
        rcases h with ⟨hr, hdb⟩
        have hle := selectAll_length_le (fun it => norm it.text ∉ texts.map norm) list.items
        refine ⟨?_, ?_, ?_, ?_, ?_⟩
        · rw [← hr]
        · intro it
          rw [← hr]
          exact mem_selectAll
        · rw [← hr]
          simp only []
          omega
        · rw [← hr]
          simp only []
          omega
        · rw [← hdb, ← hr]
      · simp only [saveList, if_neg hv] at h
        simp at h

/-- Closed instantiation of `removeItems_matching_semantics`: removing
`" BREAD "` matches the stored `"Bread"`, removing `"nope"` matches none. -/
theorem removeItems_matching_semantics_witness :
    (removeItemsFromList dbBase 8 555 ["nope"] =
      (.error ⟨.notFound, "No matching items found to remove"⟩, dbBase)) ∧
    rmBreadResult.removedCount + rmBreadResult.list.items.length = lGroceries.items.length ∧
    0 < rmBreadResult.removedCount := by
  have hrun := (removeItems_matching_semantics dbBase 8 555 [" BREAD "] uAna lGroceries mAdmin
    (by decide) (by decide) (by decide) (by decide)).2 rmBreadResult dbAfterBread (by rfl)
  refine ⟨?_, hrun.2.2.1, hrun.2.2.2.1⟩
  exact (removeItems_matching_semantics dbBase 8 555 ["nope"] uAna lGroceries mAdmin
    (by decide) (by decide) (by decide) (by decide)).1 (by decide)

/-! ## C4: at most one default list per group -/

/-- C4: setting a default — creating a list with `isDefault = true`
(`createList`), or updating an existing list to `isDefault = true`
(`updateListById`) — ends with the created/updated list as the *only*
default of its group: the prior default is cleared by the same operation and
every other list of the group has `isDefault = false` afterwards. -/
theorem singleDefaultList_per_group (db : DB) (body : ListBody) (listId uid : Nat)
    (b : ListUpdateBody) :
    (∀ r db2, body.isDefault = true → createList db body = (.ok r, db2) →
      r.isDefault = true ∧ r.groupId = body.groupId ∧
      selectAll (fun l => l.groupId = body.groupId ∧ l.isDefault = true) db2.lists = [r] ∧
      (∀ l ∈ db2.lists, l.groupId = body.groupId → l.id ≠ r.id → l.isDefault = false)) ∧
    ((db.lists.map ListDoc.id).Nodup →
      ∀ r db2, b.isDefault = some true → updateListById db listId b uid = (.ok r, db2) →
      r.isDefault = true ∧ r.id = listId ∧
      selectAll (fun l => l.groupId = r.groupId ∧ l.isDefault = true) db2.lists = [r] ∧
      (∀ l ∈ db2.lists, l.groupId = r.groupId → l.id ≠ listId → l.isDefault = false)) := by
  constructor
  · intro r db2 hdef h
    rcases hmem : findFirst (fun m => m.user_id = some body.createdBy ∧
        m.group_id = body.groupId ∧ m.status = MStatus.active) db.memberships with _ | mm
    · simp only [createList, hmem] at h
      simp at h
    by_cases hval : jsTrim body.name = "" ∨ 100 < (jsTrim body.name).length ∨
        500 < ((trimOpt body.description).getD "").length
    · simp only [createList, hmem, hdef, if_true, listCreate, if_pos hval] at h
      simp at h
    · have hnodefault : ∀ a ∈ updateWhere (fun l => l.groupId = body.groupId ∧ l.isDefault = true)
          (fun l => { l with isDefault := false }) db.lists,
          ¬ (a.groupId = body.groupId ∧ a.isDefault = true) := by
        intro a ha
        rw [updateWhere_eq_map] at ha
        rcases List.mem_map.mp ha with ⟨x, _, rfl⟩
        by_cases hpx : x.groupId = body.groupId ∧ x.isDefault = true
        · rw [if_pos hpx]
          rintro ⟨_, hdf⟩
          exact Bool.false_ne_true hdf
        · rw [if_neg hpx]
          exact hpx
      have hnone : findFirst (fun l => l.groupId = body.groupId ∧ l.isDefault = true)
          (updateWhere (fun l => l.groupId = body.groupId ∧ l.isDefault = true)
            (fun l => { l with isDefault := false }) db.lists) = none :=
        findFirst_eq_none hnodefault
      simp only [createList, hmem, hdef, if_true, listCreate, if_neg hval, hnone] at h
      simp only [Prod.mk.injEq, Except.ok.injEq] at h
      rcases h with ⟨hr, hdb⟩
      subst hr
      subst hdb
      refine ⟨rfl, rfl, ?_, ?_⟩
      · rw [selectAll_append]
        rw [selectAll_eq_nil hnodefault]
        simp [selectAll]
      · intro l hl hg hid
        rcases List.mem_append.mp hl with hl' | hl'
        · rcases Bool.eq_false_or_eq_true l.isDefault with hld | hld
          · exact absurd ⟨hg, hld⟩ (hnodefault l hl')
          · exact hld
        · rcases List.mem_singleton.mp hl' with rfl
          exact absurd rfl hid
  · intro hnd r db2 hbdef h
    rcases hl : findFirst (fun l => l.id = listId) db.lists with _ | list
    · simp only [updateListById, getListByIdSvc, hl] at h
      simp at h
    rcases hmm : findFirst (fun m => m.user_id = some uid ∧ m.group_id = list.groupId ∧
        m.status = MStatus.active) db.memberships with _ | mm
    · simp only [updateListById, getListByIdSvc, hl, hmm] at h
      simp at h
    by_cases hperm : list.createdBy ≠ uid ∧ mm.role ≠ Role.admin
    · simp only [updateListById, getListByIdSvc, hl, hmm, if_pos hperm] at h
      simp at h
    by_cases hval : listDocValid (applyListUpdate list b)
    · simp only [updateListById, getListByIdSvc, hl, hmm, if_neg hperm, if_pos hbdef,
        saveList, if_pos hval] at h
      simp only [Prod.mk.injEq, Except.ok.injEq] at h
      rcases h with ⟨hr, hdb⟩
      subst hr
      subst hdb
      have hlid : list.id = listId := (findFirst_eq_some hl).2
      have hlmem : list ∈ db.lists := (findFirst_eq_some hl).1
      have hmid : (applyListUpdate list b).id = listId := hlid
      have hmdef : (applyListUpdate list b).isDefault = true := by
        simp [applyListUpdate, hbdef]
      -- the state after the clearing `updateMany`
      set cleared := updateWhere
        (fun l => l.groupId = list.groupId ∧ l.isDefault = true ∧ l.id ≠ listId)
        (fun l => { l with isDefault := false }) db.lists with hcleared
      -- the state after the save
      set stored := updateWhere (fun x => x.id = (applyListUpdate list b).id)
        (fun _ => applyListUpdate list b) cleared with hstored
      -- the merged document is stored
      have hmerged_mem : applyListUpdate list b ∈ stored := by
        have hclear : list ∈ cleared := by
          rw [hcleared]
          exact mem_updateWhere_self hlmem (fun hc => hc.2.2 hlid)
        rw [hstored]
        exact mem_updateWhere_updated hclear rfl
      -- only the merged document can be a default of the group afterwards
      have huniq : ∀ x ∈ stored,
          (x.groupId = (applyListUpdate list b).groupId ∧ x.isDefault = true) →
          x = applyListUpdate list b := by
        intro x hx hpx
        rw [hstored, updateWhere_eq_map] at hx
        rcases List.mem_map.mp hx with ⟨y, hy, rfl⟩
        by_cases hyid : y.id = (applyListUpdate list b).id
        · rw [if_pos hyid]
        · rw [if_neg hyid] at hpx ⊢
          exfalso
          rw [hcleared, updateWhere_eq_map] at hy
          rcases List.mem_map.mp hy with ⟨z, _, rfl⟩
          by_cases hpz : z.groupId = list.groupId ∧ z.isDefault = true ∧ z.id ≠ listId
          · rw [if_pos hpz] at hpx
            exact Bool.false_ne_true hpx.2
          · rw [if_neg hpz] at hpx hyid
            exact hpz ⟨hpx.1, hpx.2, fun hc => hyid (hc.trans hmid.symm)⟩
      have hnd1 : (cleared.map ListDoc.id).Nodup := by
        have e1 : cleared.map ListDoc.id = db.lists.map ListDoc.id :=
          updateWhere_map_eq ListDoc.id (fun a _ _ => rfl)
        rw [e1]
        exact hnd
      have hnd2 : (stored.map ListDoc.id).Nodup := by
        have e2 : stored.map ListDoc.id = cleared.map ListDoc.id :=
          updateWhere_map_eq ListDoc.id (fun a _ hpa => by rw [hpa])
        rw [e2]
        exact hnd1
      refine ⟨hmdef, hmid, ?_, ?_⟩
      · exact selectAll_unique ListDoc.id hnd2 hmerged_mem ⟨rfl, hmdef⟩ huniq
      · intro l hl' hg hid
        rcases Bool.eq_false_or_eq_true l.isDefault with hld | hld
        · have := huniq l hl' ⟨hg, hld⟩
          exact absurd (by rw [this, hmid]) hid
        · exact hld
    · simp only [updateListById, getListByIdSvc, hl, hmm, if_neg hperm, if_pos hbdef,
        saveList, if_neg hval] at h
      simp at h

/-- Closed instantiation of `singleDefaultList_per_group`: creating the
default `lParty` clears the old default; promoting `lSecond` via
`updateListById` clears `lMain` and leaves `lSecond` the only default. -/
theorem singleDefaultList_per_group_witness :
    (selectAll (fun l => l.groupId = 0 ∧ l.isDefault = true) dbParty.lists = [lParty]) ∧
    (selectAll (fun l => l.groupId = lSecondDefault.groupId ∧ l.isDefault = true)
      dbSwitched.lists = [lSecondDefault]) ∧
    (∀ l ∈ dbSwitched.lists, l.groupId = lSecondDefault.groupId → l.id ≠ 4 →
      l.isDefault = false) := by
  have h1 := (singleDefaultList_per_group dbBase bodyParty 4 1
    { name := none, description := none, isDefault := some true }).1 lParty dbParty
    (by decide) (by rfl)
  have h2 := (singleDefaultList_per_group dbBase bodyParty 4 1
    { name := none, description := none, isDefault := some true }).2 (by decide)
    lSecondDefault dbSwitched (by decide) (by rfl)
  exact ⟨h1.2.2.1, h2.2.2.1, h2.2.2.2⟩

/-! ## C8: `addItemsToList` normalises, partitions and skips duplicates -/

theorem nodup_concat {l : List α} {a : α} (h : l.Nodup) (ha : a ∉ l) :
    (l ++ [a]).Nodup := by
  induction l with
  | nil => simp
  | cons x xs ih =>
    simp only [List.nodup_cons] at h
    have hax : a ≠ x := fun hc => ha (hc ▸ List.mem_cons_self x xs)
    simp only [List.cons_append, List.nodup_cons]
    constructor
    · intro hc
      rcases List.mem_append.mp hc with hc' | hc'
      · exact h.1 hc'
      · rcases List.mem_singleton.mp hc' with rfl
        exact hax rfl
    · exact ih h.2 (fun hc => ha (List.mem_cons_of_mem x hc))

/-- The inductive content of the `addItemsToList` partition loop: relative to
a fixed stock of already-stored normalised texts (`base`), the loop preserves
`seen = base ++ toAdd.map jsToLower`, keeps the admitted keys duplicate-free
and outside `base`, conserves the batch size, and admits only trimmed batch
texts. -/
theorem partitionItems_props (base : List String) (ts : List String) :
    ∀ (seen dups toAdd : List String) (idx : Nat) (toAddF dupsF : List String),
    seen = base ++ toAdd.map jsToLower →
    (toAdd.map jsToLower).Nodup →
    (∀ s ∈ toAdd, jsToLower s ∉ base) →
    partitionItems seen dups toAdd idx ts = .ok (toAddF, dupsF) →
    toAddF.length + dupsF.length = toAdd.length + dups.length + ts.length ∧
    (toAddF.map jsToLower).Nodup ∧
    (∀ s ∈ toAddF, jsToLower s ∉ base) ∧
    (∀ s ∈ toAddF, s ∈ toAdd ∨ ∃ t ∈ ts, s = jsTrim t) := by
  induction ts with
  | nil =>
    intro seen dups toAdd idx toAddF dupsF hseen hnd hout hrun
    simp only [partitionItems, Except.ok.injEq, Prod.mk.injEq] at hrun
    rcases hrun with ⟨rfl, rfl⟩
    exact ⟨by simp, hnd, hout, fun s hs => Or.inl hs⟩
  | cons t ts ih =>
    intro seen dups toAdd idx toAddF dupsF hseen hnd hout hrun
    by_cases hempty : jsTrim t = ""
    · simp only [partitionItems, if_pos hempty] at hrun
      cases hrun
    by_cases hdup : norm t ∈ seen
    · simp only [partitionItems, if_neg hempty, if_pos hdup] at hrun
      have := ih seen (dups ++ [jsTrim t]) toAdd (idx + 1) toAddF dupsF hseen hnd hout hrun
      refine ⟨?_, this.2.1, this.2.2.1, ?_⟩
      · have h1 := this.1
        simp at h1 ⊢
        omega
      · intro s hs
        rcases this.2.2.2 s hs with h | ⟨t', ht', he⟩
        · exact Or.inl h
        · exact Or.inr ⟨t', List.mem_cons_of_mem t ht', he⟩
    · simp only [partitionItems, if_neg hempty, if_neg hdup] at hrun
      have hseen' : seen ++ [norm t] = base ++ (toAdd ++ [jsTrim t]).map jsToLower := by
        rw [hseen, List.map_append]
        simp [norm, List.append_assoc]
      have hnd' : ((toAdd ++ [jsTrim t]).map jsToLower).Nodup := by
        rw [List.map_append]
        apply nodup_concat hnd
        intro hc
        apply hdup
        rw [hseen]
        exact List.mem_append.mpr (Or.inr (by simpa [norm] using hc))
      have hout' : ∀ s ∈ toAdd ++ [jsTrim t], jsToLower s ∉ base := by
        intro s hs
        rcases List.mem_append.mp hs with hs' | hs'
        · exact hout s hs'
        · rcases List.mem_singleton.mp hs' with rfl
          intro hc
          apply hdup
          rw [hseen]
          exact List.mem_append.mpr (Or.inl (by simpa [norm] using hc))
      have := ih (seen ++ [norm t]) dups (toAdd ++ [jsTrim t]) (idx + 1) toAddF dupsF
        hseen' hnd' hout' hrun
      refine ⟨?_, this.2.1, this.2.2.1, ?_⟩
      · have h1 := this.1
        simp at h1 ⊢
        omega
      · intro s hs
        rcases this.2.2.2 s hs with h | ⟨t', ht', he⟩
        · rcases List.mem_append.mp h with h' | h'
          · exact Or.inl h'
          · rcases List.mem_singleton.mp h' with rfl
            exact Or.inr ⟨t, List.mem_cons_self t ts, rfl⟩
        · exact Or.inr ⟨t', List.mem_cons_of_mem t ht', he⟩

theorem buildItems_length (f : String) (ts : List String) :
    ∀ o i, (buildItems f o i ts).length = ts.length := by
  induction ts with
  | nil => intro o i; rfl
  | cons t ts ih =>
    intro o i
    simp only [buildItems, List.length_cons, ih]

theorem buildItems_map_key (f : String) (ts : List String) :
    ∀ o i, (buildItems f o i ts).map (fun it => jsToLower it.text) = ts.map jsToLower := by
  induction ts with
  | nil => intro o i; rfl
  | cons t ts ih =>
    intro o i
    simp only [buildItems, List.map_cons, ih]

theorem buildItems_mem {f : String} {ts : List String} {it : Item} :
    ∀ {o i : Nat}, it ∈ buildItems f o i ts → it.addedBy = f ∧ it.text ∈ ts := by
  induction ts with
  | nil => intro o i h; cases h
  | cons t ts ih =>
    intro o i h
    rcases List.mem_cons.mp h with rfl | h'
    · exact ⟨rfl, List.mem_cons_self t ts⟩
    · rcases ih h' with ⟨ha, ht⟩
      exact ⟨ha, List.mem_cons_of_mem t ht⟩

/-- C8: with the phone, list and membership gates satisfied, a successful
`addItemsToList` call partitions the batch against both the list's existing
items and the batch itself under trim+lowercase normalisation: the counts
conserve the batch size, `duplicateItems` carries exactly the skipped texts
(and is `none` only when nothing was skipped), and the appended items are
trimmed batch texts whose lowercased forms are pairwise distinct and absent
from the existing items; in particular `["Milk", "milk "]` against the empty
sample list adds exactly one item `"Milk"` and reports one skipped
duplicate. -/
theorem addItems_partition_semantics (db : DB) (listId phone : Nat) (items : List String)
    (u : User) (list : ListDoc) (mm : Membership)
    (hu : findFirst (fun v => v.phoneNumber = phone) db.users = some u)
    (hl : findFirst (fun l => l.id = listId) db.lists = some list)
    (hm : findFirst (fun m => m.user_id = some u.id ∧ m.group_id = list.groupId ∧
      m.status = MStatus.active) db.memberships = some mm) :
    (∀ r db2, addItemsToList db listId phone items = (.ok r, db2) →
      r.itemsAdded + r.itemsSkipped = items.length ∧
      ((r.duplicateItems = none ∧ r.itemsSkipped = 0) ∨
        (∃ ds, r.duplicateItems = some ds ∧ ds.length = r.itemsSkipped)) ∧
      ∃ newItems : List Item,
        r.list.items = list.items ++ newItems ∧
        r.itemsAdded = newItems.length ∧
        (newItems.map (fun it => jsToLower it.text)).Nodup ∧
        (∀ it ∈ newItems, jsToLower it.text ∉ list.items.map (fun o => norm o.text)) ∧
        (∀ it ∈ newItems, it.addedBy = u.firstName ∧ ∃ t ∈ items, it.text = jsTrim t)) ∧
    ((addItemsToList dbBase 3 555 ["Milk", "milk "]).1.toOption.map
      (fun r => (r.itemsAdded, r.itemsSkipped, r.duplicateItems, r.list.items.map Item.text)) =
      some (1, 1, some ["milk"], ["Milk"])) := by
  constructor
  · intro r db2 h
    by_cases hempty : items = []
    · simp only [addItemsToList, hu, hl, hm, if_pos hempty] at h
      simp at h
    rcases hpart : partitionItems (list.items.map (fun it => norm it.text)) [] [] 0 items
      with e | ⟨toAdd, dups⟩
    · simp only [addItemsToList, hu, hl, hm, if_neg hempty, hpart] at h
      simp at h
    have hprops := partitionItems_props (list.items.map (fun it => norm it.text)) items
      (list.items.map (fun it => norm it.text)) [] [] 0 toAdd dups (by simp) (by simp)
      (by simp) hpart
    by_cases htoAdd : toAdd = []
    · simp only [addItemsToList, hu, hl, hm, if_neg hempty, hpart, if_pos htoAdd] at h
      simp only [Prod.mk.injEq, Except.ok.injEq] at h
      rcases h with ⟨hr, _⟩
      subst hr
      subst htoAdd
      have h1 := hprops.1
      simp only [List.length_nil] at h1
      refine ⟨?_, Or.inr ⟨dups, rfl, rfl⟩, [], by simp, rfl, by simp, by simp, by simp⟩
      show 0 + dups.length = items.length
      omega
    · simp only [addItemsToList, hu, hl, hm, if_neg hempty, hpart, if_neg htoAdd] at h
      set newIts := buildItems u.firstName
        (if 0 < list.items.length then maxOrder list.items + 1 else 1) db.nextId toAdd
        with hnew
      by_cases hval : listDocValid { list with items := list.items ++ newIts }
      · simp only [saveList, if_pos hval] at h
        simp only [Prod.mk.injEq, Except.ok.injEq] at h
        rcases h with ⟨hr, _⟩
        subst hr
        refine ⟨?_, ?_, newIts, rfl, ?_, ?_, ?_, ?_⟩
        · have h1 := hprops.1
          simp only [List.length_nil] at h1
          show toAdd.length + dups.length = items.length
          omega
        · by_cases hd : dups = []
          · exact Or.inl ⟨by simp [hd], by simp [hd]⟩
          · exact Or.inr ⟨dups, by simp [hd], rfl⟩
        · rw [hnew, buildItems_length]
        · rw [hnew, buildItems_map_key]
          exact hprops.2.1
        · intro it hit
          rw [hnew] at hit
          rcases buildItems_mem hit with ⟨_, htext⟩
          exact hprops.2.2.1 it.text htext
        · intro it hit
          rw [hnew] at hit
          rcases buildItems_mem hit with ⟨ha, htext⟩
          refine ⟨ha, ?_⟩
          rcases hprops.2.2.2 it.text htext with hc | hc
          · cases hc
          · exact hc
      · simp only [saveList, if_neg hval] at h
        simp at h
  · rfl

/-- Closed instantiation of `addItems_partition_semantics`: the
`["Milk", "milk "]` batch against the empty default list of the sample
state. -/
theorem addItems_partition_semantics_witness :
    (addItemsToList dbBase 3 555 ["Milk", "milk "]).1.toOption.map
      (fun r => (r.itemsAdded, r.itemsSkipped, r.duplicateItems, r.list.items.map Item.text)) =
      some (1, 1, some ["milk"], ["Milk"]) :=
  (addItems_partition_semantics dbBase 3 555 ["Milk", "milk "] uAna lMain mAdmin
    (by decide) (by decide) (by decide)).2

/-! ## C1: the `createGroup` triple -/

/-- C1 as stated is false on the code: a `createGroup` call that sets the
skip options succeeds while creating *no* membership and *no* list, so a
successful call does not always leave an admin membership and a default list
for the new group. -/
theorem createGroup_skip_counterexample :
    createGroup dbEmpty gBody true true true 5 none = (.ok gCasa, dbCasaSkipped) ∧
    selectAll (fun m => m.group_id = gCasa.id ∧ m.role = Role.admin ∧
      m.status = MStatus.active) dbCasaSkipped.memberships = [] ∧
    selectAll (fun l => l.groupId = gCasa.id ∧ l.isDefault = true) dbCasaSkipped.lists = [] := by
  refine ⟨by rfl, rfl, rfl⟩

/-- C1 (amended): for every successful `createGroup` call that does not skip
the membership and list steps and whose body carries `createdBy`, the
post-state holds exactly one active admin membership for the new group — the
creator's self-membership, with `accepted_at` set and `invited_by` the
creator — and exactly one default list for it, named "Default List"; and for
every call (any options), a failing inner step leaves the state unchanged
(the transaction aborts, so none of the three documents persists). -/
theorem defaultOwner_createdBy (body : GroupBody) :
    (defaultOwner body).createdBy = body.createdBy := by
  unfold defaultOwner
  split <;> rfl

theorem defaultOwner_ownerId_of_none {body : GroupBody} {u : Nat}
    (hcb : body.createdBy = some u) (h : body.ownerId = none) :
    (defaultOwner body).ownerId = some u := by
  unfold defaultOwner
  rw [if_pos ⟨by rw [hcb]; rfl, h⟩]
  exact hcb

theorem createGroup_triple_atomic (db : DB) (body : GroupBody) (u : Nat) (now : Nat)
    (iconResult : Option String) (skipHashicon : Bool)
    (hfreshm : ∀ m ∈ db.memberships, m.group_id ≠ db.nextId)
    (hfreshl : ∀ l ∈ db.lists, l.groupId ≠ db.nextId)
    (hcb : body.createdBy = some u) :
    (∀ g db2, createGroup db body false false skipHashicon now iconResult = (.ok g, db2) →
      g.id = db.nextId ∧ g.createdBy = some u ∧
      (body.ownerId = none → g.ownerId = some u) ∧
      selectAll (fun m => m.group_id = g.id ∧ m.role = Role.admin ∧ m.status = MStatus.active)
        db2.memberships = [adminDoc (db.nextId + 1) g.id u now] ∧
      selectAll (fun l => l.groupId = g.id ∧ l.isDefault = true) db2.lists =
        [defaultListDoc (db.nextId + 2) g.id u]) ∧
    (∀ (body2 : GroupBody) (sm sl sh : Bool) (ic : Option String) (e : ApiError),
      (createGroup db body2 sm sl sh now ic).1 = .error e →
      (createGroup db body2 sm sl sh now ic).2 = db) := by
  constructor
  · intro g db2 h
    have hbn : (defaultOwner body).createdBy = some u := by
      rw [defaultOwner_createdBy, hcb]
    by_cases hval : jsTrim (defaultOwner body).name = "" ∨
        100 < (jsTrim (defaultOwner body).name).length ∨
        500 < ((trimOpt (defaultOwner body).description).getD "").length
    · simp only [createGroup, if_pos hval] at h
      simp at h
    · have hdl : ¬ (jsTrim "Default List" = "" ∨ 100 < (jsTrim "Default List").length ∨
          500 < ((trimOpt (some "Default list for this group")).getD "").length) := by decide
      have hmv : membershipValid (adminDoc (db.nextId + 1) db.nextId u now) := by
        unfold membershipValid
        constructor
        · intro hc
          exact nomatch hc
        · intro _
          simp [adminDoc]
      have hnofl : findFirst (fun l => l.groupId = db.nextId ∧ l.isDefault = true)
          db.lists = none :=
        findFirst_eq_none (fun l hl hc => hfreshl l hl hc.1)
      simp only [adminDoc] at hmv
      simp only [createGroup, if_neg hval, hbn, listCreate, if_neg hdl] at h
      rw [if_pos hmv] at h
      simp only [if_neg Bool.false_ne_true, eq_self_iff_true, if_true, hnofl] at h
      have hsplit : g.id = db.nextId ∧ g.createdBy = some u ∧
          g.ownerId = (defaultOwner body).ownerId ∧
          db2.memberships = db.memberships ++ [adminDoc (db.nextId + 1) db.nextId u now] ∧
          db2.lists = db.lists ++ [defaultListDoc (db.nextId + 2) db.nextId u] := by
        cases skipHashicon with
        | true =>
          rw [if_pos rfl] at h
          simp only [Prod.mk.injEq, Except.ok.injEq] at h
          rcases h with ⟨hg, hdb⟩
          subst hg
          subst hdb
          exact ⟨rfl, rfl, rfl, rfl, rfl⟩
        | false =>
          rw [if_neg Bool.false_ne_true] at h
          cases iconResult with
          | none =>
            simp only [Prod.mk.injEq, Except.ok.injEq] at h
            rcases h with ⟨hg, hdb⟩
            subst hg
            subst hdb
            exact ⟨rfl, rfl, rfl, rfl, rfl⟩
          | some url =>
            simp only [Prod.mk.injEq, Except.ok.injEq] at h
            rcases h with ⟨hg, hdb⟩
            subst hg
            subst hdb
            exact ⟨rfl, rfl, rfl, rfl, rfl⟩
      rcases hsplit with ⟨hgid, hgcb, hgown, hdbm, hdbl⟩
      refine ⟨hgid, hgcb, ?_, ?_, ?_⟩
      · intro hon
        rw [hgown]
        exact defaultOwner_ownerId_of_none hcb hon
      · rw [hdbm, selectAll_append]
        rw [selectAll_eq_nil (fun m hm hc => hfreshm m hm (hgid ▸ hc.1))]
        simp [selectAll, adminDoc, hgid]
      · rw [hdbl, selectAll_append]
        rw [selectAll_eq_nil (fun l hl hc => hfreshl l hl (hgid ▸ hc.1))]
        simp [selectAll, defaultListDoc, hgid]
  · have hshape : ∀ (body2 : GroupBody) (sm sl sh : Bool) (ic : Option String),
        (createGroup db body2 sm sl sh now ic).2 = db ∨
        ∃ g2, (createGroup db body2 sm sl sh now ic).1 = .ok g2 := by
      intro body2 sm sl sh ic
      simp only [createGroup]
      split
      · exact Or.inl rfl
      · split
        · exact Or.inl rfl
        · split
          · exact Or.inl rfl
          · split
            · exact Or.inr ⟨_, rfl⟩
            · split
              · exact Or.inr ⟨_, rfl⟩
              · exact Or.inr ⟨_, rfl⟩
    intro body2 sm sl sh ic e herr
    rcases hshape body2 sm sl sh ic with hdb | ⟨g2, hg2⟩
    · exact hdb
    · rw [herr] at hg2
      cases hg2

/-- Closed instantiation of `createGroup_triple_atomic`: a full `createGroup`
on the empty state produces the group, its sole admin membership and its sole
default list. -/
theorem createGroup_triple_atomic_witness :
    createGroup dbEmpty gBody false false true 5 none = (.ok gCasa, dbCasaFull) ∧
    selectAll (fun m => m.group_id = gCasa.id ∧ m.role = Role.admin ∧
      m.status = MStatus.active) dbCasaFull.memberships =
      [adminDoc (dbEmpty.nextId + 1) gCasa.id 1 5] ∧
    selectAll (fun l => l.groupId = gCasa.id ∧ l.isDefault = true) dbCasaFull.lists =
      [defaultListDoc (dbEmpty.nextId + 2) gCasa.id 1] := by
  have hrun := (createGroup_triple_atomic dbEmpty gBody 1 5 none true (by decide) (by decide)
    (by decide)).1 gCasa dbCasaFull (by rfl)
  exact ⟨by rfl, hrun.2.2.2.1, hrun.2.2.2.2⟩

/-! ## C2: the last-admin guard and the at-least-one-admin invariant -/

theorem selectAll_sublist (p : α → Prop) [DecidablePred p] (l : List α) :
    List.Sublist (selectAll p l) l := by
  induction l with
  | nil => exact List.Sublist.refl []
  | cons x xs ih =>
    by_cases hx : p x
    · simp only [selectAll, if_pos hx]
      exact ih.cons₂ x
    · simp only [selectAll, if_neg hx]
      exact ih.cons x

theorem exists_other_admin {l : List Membership} {p : Membership → Prop} [DecidablePred p]
    (hnd : (l.map Membership.id).Nodup) (h2 : 2 ≤ (selectAll p l).length) (mid : Nat) :
    ∃ y ∈ l, p y ∧ y.id ≠ mid := by
  have hndsel : ((selectAll p l).map Membership.id).Nodup :=
    hnd.sublist ((selectAll_sublist p l).map Membership.id)
  match hsel : selectAll p l with
  | [] => rw [hsel] at h2; simp at h2
  | [a] => rw [hsel] at h2; simp at h2
  | a :: b :: rest =>
    rw [hsel] at hndsel
    have hab : a.id ≠ b.id := by
      simp only [List.map_cons, List.nodup_cons] at hndsel
      intro hc
      exact hndsel.1 (by rw [hc]; exact List.mem_cons_self _ _)
    have ha : a ∈ l ∧ p a := mem_selectAll.mp (by rw [hsel]; exact List.mem_cons_self a _)
    have hb : b ∈ l ∧ p b := mem_selectAll.mp
      (by rw [hsel]; exact List.mem_cons_of_mem a (List.mem_cons_self b rest))
    by_cases hma : a.id = mid
    · exact ⟨b, hb.1, hb.2, fun hc => hab (hma.trans hc.symm)⟩
    · exact ⟨a, ha.1, ha.2, hma⟩

/-- After overwriting the membership with id `m.id` by a document with the
same id, distinct ids are preserved, and the group keeps an active admin as
long as either some *other* active admin exists or `m` was not one. -/
theorem preserve_after_save (db : DB) (gid : Nat) (m m' : Membership)
    (hm : m ∈ db.memberships) (hid : m'.id = m.id)
    (hnd : membershipIdsNodup db) (hadm : hasActiveAdmin db gid)
    (hcase : (∃ y ∈ db.memberships, isActiveAdminOf gid y ∧ y.id ≠ m.id) ∨
      ¬ isActiveAdminOf gid m) :
    membershipIdsNodup
      { db with memberships := updateWhere (fun x => x.id = m.id) (fun _ => m') db.memberships } ∧
    hasActiveAdmin
      { db with memberships := updateWhere (fun x => x.id = m.id) (fun _ => m') db.memberships }
      gid := by
  constructor
  · unfold membershipIdsNodup at hnd ⊢
    show ((updateWhere (fun x => x.id = m.id) (fun _ => m') db.memberships).map
      Membership.id).Nodup
    rw [updateWhere_map_eq Membership.id (fun a _ hpa => by rw [hid, hpa])]
    exact hnd
  · rcases hcase with ⟨y, hy, hpy, hyid⟩ | hnotm
    · exact ⟨y, mem_updateWhere_self hy hyid, hpy⟩
    · rcases hadm with ⟨w, hw, hpw⟩
      by_cases hwid : w.id = m.id
      · have hwm : w = m := List.inj_on_of_nodup_map hnd hw hm hwid
        exact absurd (hwm ▸ hpw) hnotm
      · exact ⟨w, mem_updateWhere_self hw hwid, hpw⟩

/-- One role-change or removal request never leaves a group that had an
active admin without one (and keeps membership ids distinct). -/
theorem applyMemberOp_preserves (db : DB) (gid : Nat) (op : MemberOp)
    (hnd : membershipIdsNodup db) (hadm : hasActiveAdmin db gid) :
    membershipIdsNodup (applyMemberOp db op) ∧ hasActiveAdmin (applyMemberOp db op) gid := by
  cases op with
  | changeRole mid r uid =>
    simp only [applyMemberOp]
    rcases hm : findFirst (fun x => x.id = mid) db.memberships with _ | m
    · simp only [updateMembershipRole, hm]
      exact ⟨hnd, hadm⟩
    rcases hum : findFirst (fun x => x.group_id = m.group_id ∧ x.user_id = some uid ∧
        x.status = MStatus.active) db.memberships with _ | um
    · simp only [updateMembershipRole, hm, hum]
      exact ⟨hnd, hadm⟩
    by_cases hr : um.role ≠ Role.admin
    · simp only [updateMembershipRole, hm, hum, if_pos hr]
      exact ⟨hnd, hadm⟩
    have hra : um.role = Role.admin := not_not.mp hr
    rcases huid : m.user_id with _ | tu
    · simp only [updateMembershipRole, hm, hum, if_neg hr, huid]
      exact ⟨hnd, hadm⟩
    have hm2 := findFirst_eq_some hm
    have hum2 := findFirst_eq_some hum
    by_cases hguard : tu = uid ∧ m.role = Role.admin
    · by_cases hcount : countMatching (fun x => x.group_id = m.group_id ∧ x.role = Role.admin ∧
          x.status = MStatus.active) db.memberships ≤ 1
      · simp only [updateMembershipRole, hm, hum, if_neg hr, huid, if_pos hguard, if_pos hcount]
        exact ⟨hnd, hadm⟩
      · simp only [updateMembershipRole, hm, hum, if_neg hr, huid, if_pos hguard, if_neg hcount]
        by_cases hv : membershipValid { m with user_id := some tu, role := r }
        · simp only [saveMembership, if_pos hv]
          have hcase : (∃ y ∈ db.memberships, isActiveAdminOf gid y ∧ y.id ≠ m.id) ∨
              ¬ isActiveAdminOf gid m := by
            by_cases hgm : isActiveAdminOf gid m
            · left
              have h2 : 2 ≤ (selectAll (fun x => x.group_id = m.group_id ∧ x.role = Role.admin ∧
                  x.status = MStatus.active) db.memberships).length := by
                unfold countMatching at hcount
                omega
              rcases exists_other_admin hnd h2 m.id with ⟨y, hy, hpy, hyid⟩
              exact ⟨y, hy, ⟨hpy.1.trans hgm.1, hpy.2.1, hpy.2.2⟩, hyid⟩
            · exact Or.inr hgm
          exact preserve_after_save db gid m { m with user_id := some tu, role := r }
            hm2.1 rfl hnd hadm hcase
        · simp only [saveMembership, if_neg hv]
          exact ⟨hnd, hadm⟩
    · simp only [updateMembershipRole, hm, hum, if_neg hr, huid, if_neg hguard]
      by_cases hv : membershipValid { m with user_id := some tu, role := r }
      · simp only [saveMembership, if_pos hv]
        have hcase : (∃ y ∈ db.memberships, isActiveAdminOf gid y ∧ y.id ≠ m.id) ∨
            ¬ isActiveAdminOf gid m := by
          by_cases hgm : isActiveAdminOf gid m
          · left
            refine ⟨um, hum2.1, ⟨hum2.2.1.trans hgm.1, hra, hum2.2.2.2⟩, ?_⟩
            intro hc
            have hueq : um = m := List.inj_on_of_nodup_map hnd hum2.1 hm2.1 hc
            apply hguard
            constructor
            · have he : m.user_id = some uid := by
                rw [← hueq]
                exact hum2.2.2.1
              rw [huid] at he
              exact Option.some.inj he
            · exact hgm.2.1
          · exact Or.inr hgm
        exact preserve_after_save db gid m { m with user_id := some tu, role := r }
          hm2.1 rfl hnd hadm hcase
      · simp only [saveMembership, if_neg hv]
        exact ⟨hnd, hadm⟩
  | removeMem mid uid =>
    simp only [applyMemberOp]
    rcases hm : findFirst (fun x => x.id = mid) db.memberships with _ | m
    · simp only [removeMember, hm]
      exact ⟨hnd, hadm⟩
    rcases hum : findFirst (fun x => x.group_id = m.group_id ∧ x.user_id = some uid ∧
        x.status = MStatus.active) db.memberships with _ | um
    · simp only [removeMember, hm, hum]
      exact ⟨hnd, hadm⟩
    by_cases hr : um.role ≠ Role.admin
    · simp only [removeMember, hm, hum, if_pos hr]
      exact ⟨hnd, hadm⟩
    have hra : um.role = Role.admin := not_not.mp hr
    rcases huid : m.user_id with _ | tu
    · simp only [removeMember, hm, hum, if_neg hr, huid]
      exact ⟨hnd, hadm⟩
    have hm2 := findFirst_eq_some hm
    have hum2 := findFirst_eq_some hum
    by_cases hguard : tu = uid ∧ m.role = Role.admin
    · by_cases hcount : countMatching (fun x => x.group_id = m.group_id ∧ x.role = Role.admin ∧
          x.status = MStatus.active) db.memberships ≤ 1
      · simp only [removeMember, hm, hum, if_neg hr, huid, if_pos hguard, if_pos hcount]
        exact ⟨hnd, hadm⟩
      · simp only [removeMember, hm, hum, if_neg hr, huid, if_pos hguard, if_neg hcount]
        by_cases hv : membershipValid { m with user_id := some tu, status := .removed }
        · simp only [saveMembership, if_pos hv]
          have hcase : (∃ y ∈ db.memberships, isActiveAdminOf gid y ∧ y.id ≠ m.id) ∨
              ¬ isActiveAdminOf gid m := by
            by_cases hgm : isActiveAdminOf gid m
            · left
              have h2 : 2 ≤ (selectAll (fun x => x.group_id = m.group_id ∧ x.role = Role.admin ∧
                  x.status = MStatus.active) db.memberships).length := by
                unfold countMatching at hcount
                omega
              rcases exists_other_admin hnd h2 m.id with ⟨y, hy, hpy, hyid⟩
              exact ⟨y, hy, ⟨hpy.1.trans hgm.1, hpy.2.1, hpy.2.2⟩, hyid⟩
            · exact Or.inr hgm
          exact preserve_after_save db gid m { m with user_id := some tu, status := .removed }
            hm2.1 rfl hnd hadm hcase
        · simp only [saveMembership, if_neg hv]
          exact ⟨hnd, hadm⟩
    · simp only [removeMember, hm, hum, if_neg hr, huid, if_neg hguard]
      by_cases hv : membershipValid { m with user_id := some tu, status := .removed }
      · simp only [saveMembership, if_pos hv]
        have hcase : (∃ y ∈ db.memberships, isActiveAdminOf gid y ∧ y.id ≠ m.id) ∨
            ¬ isActiveAdminOf gid m := by
          by_cases hgm : isActiveAdminOf gid m
          · left
            refine ⟨um, hum2.1, ⟨hum2.2.1.trans hgm.1, hra, hum2.2.2.2⟩, ?_⟩
            intro hc
            have hueq : um = m := List.inj_on_of_nodup_map hnd hum2.1 hm2.1 hc
            apply hguard
            constructor
            · have he : m.user_id = some uid := by
                rw [← hueq]
                exact hum2.2.2.1
              rw [huid] at he
              exact Option.some.inj he
            · exact hgm.2.1
          · exact Or.inr hgm
        exact preserve_after_save db gid m { m with user_id := some tu, status := .removed }
          hm2.1 rfl hnd hadm hcase
      · simp only [saveMembership, if_neg hv]
        exact ⟨hnd, hadm⟩

/-- C2: when the updater/remover holds the (unique first-found) active admin
membership of the target's group and the target is the *only* active admin
membership of that group, `updateMembershipRole` and `removeMember` reject
with `BadRequest` ("group must have at least one admin") leaving the state
unchanged; consequently no sequence of role-change or removal requests takes
a group (with distinct membership ids) from having an active admin to having
none. -/
theorem lastAdmin_guard (db : DB) (mid updId : Nat) (newRole : Role) (m um : Membership) :
    (findFirst (fun x => x.id = mid) db.memberships = some m →
      findFirst (fun x => x.group_id = m.group_id ∧ x.user_id = some updId ∧
        x.status = MStatus.active) db.memberships = some um →
      um.role = Role.admin →
      selectAll (fun x => x.group_id = m.group_id ∧ x.role = Role.admin ∧
        x.status = MStatus.active) db.memberships = [m] →
      updateMembershipRole db mid newRole updId =
        (.error ⟨.badRequest, "Cannot change role: group must have at least one admin"⟩, db) ∧
      removeMember db mid updId =
        (.error ⟨.badRequest, "Cannot remove yourself: group must have at least one admin"⟩,
          db)) ∧
    (∀ (db2 : DB) (gid : Nat) (ops : List MemberOp), membershipIdsNodup db2 →
      hasActiveAdmin db2 gid → hasActiveAdmin (applyMemberOps db2 ops) gid) := by
  constructor
  · intro hm hum hrole hsole
    have hum2 := findFirst_eq_some hum
    have humSel : um ∈ selectAll (fun x => x.group_id = m.group_id ∧ x.role = Role.admin ∧
        x.status = MStatus.active) db.memberships :=
      mem_selectAll.mpr ⟨hum2.1, hum2.2.1, hrole, hum2.2.2.2⟩
    rw [hsole] at humSel
    have hueq : um = m := List.mem_singleton.mp humSel
    subst hueq
    have huid : um.user_id = some updId := hum2.2.2.1
    have hc : countMatching (fun x => x.group_id = um.group_id ∧ x.role = Role.admin ∧
        x.status = MStatus.active) db.memberships ≤ 1 := by
      unfold countMatching
      rw [hsole]
      exact Nat.le_refl 1
    constructor
    · simp only [updateMembershipRole, hm, hum, if_neg (not_not_intro hrole), huid, if_pos hc]
      rw [if_pos (show True ∧ um.role = Role.admin from ⟨trivial, hrole⟩)]
    · simp only [removeMember, hm, hum, if_neg (not_not_intro hrole), huid, if_pos hc]
      rw [if_pos (show True ∧ um.role = Role.admin from ⟨trivial, hrole⟩)]
  · intro db2 gid ops
    induction ops generalizing db2 with
    | nil =>
      intro _ hadm
      exact hadm
    | cons op ops ih =>
      intro hnd hadm
      have hstep := applyMemberOp_preserves db2 gid op hnd hadm
      exact ih (applyMemberOp db2 op) hstep.1 hstep.2

/-- Closed instantiation of `lastAdmin_guard` on the sample state, whose only
active admin of group `0` is `mAdmin` (`uAna`): self-demotion and
self-removal are rejected, and a demote-then-remove sequence leaves the
group with an active admin. -/
theorem lastAdmin_guard_witness :
    (updateMembershipRole dbBase 2 Role.editor 1 =
      (.error ⟨.badRequest, "Cannot change role: group must have at least one admin"⟩,
        dbBase)) ∧
    (removeMember dbBase 2 1 =
      (.error ⟨.badRequest, "Cannot remove yourself: group must have at least one admin"⟩,
        dbBase)) ∧
    hasActiveAdmin
      (applyMemberOps dbBase [MemberOp.changeRole 2 Role.editor 1, MemberOp.removeMem 2 1])
      0 := by
  have hguard := (lastAdmin_guard dbBase 2 1 Role.editor mAdmin mAdmin).1
    (by decide) (by decide) (by decide) (by decide)
  refine ⟨hguard.1, hguard.2, ?_⟩
  exact (lastAdmin_guard dbBase 2 1 Role.editor mAdmin mAdmin).2 dbBase 0
    [MemberOp.changeRole 2 Role.editor 1, MemberOp.removeMem 2 1]
    (by unfold membershipIdsNodup; decide) ⟨mAdmin, by decide, by decide⟩

end Casamiro
